import Mathlib

/-!
# Playback controller and animation helpers of `src/spotify.cpp`

A shallow embedding of the C++ program and proofs about it.

Modelling conventions
* `float` values are rationals (`ℚ`).  Rounding to binary32 (to nearest, ties to even,
  gradual underflow; no NaN and no infinity) is `roundF32`, and `FadeValue` and
  `easeOutCubic` round the result of every arithmetic operation with it.  The other
  `float` expressions of the program (colour blend, seek fraction, pulse constants and
  times) are kept exact.
* `int` values are mathematical integers (`ℤ`); the C++ operator `%` truncates toward
  zero and is `Int.tmod`.  The playlist holds a handful of tracks, so no `int`
  computation of the program leaves the 32-bit range.
* `std::string` is `String`, `std::vector` is `List`.
* The global variables of the program are the fields of `State` and every function that
  reads or writes them passes the state explicitly.
* raylib is an external library.  The outcome of each query to it (does a file exist,
  did a decode succeed) is supplied by an `Env`; every call that the program issues is
  appended, in program order, to `State.calls`.
-/

namespace Spotify

/-! ## raylib / raymath primitives used by the program -/

/-- The raymath function `Clamp(value, min, max)`:
`result = (value < min) ? min : value; if (result > max) result = max;`. -/
def Clamp (value min max : ℚ) : ℚ :=
  let result := if value < min then min else value
  if result > max then max else result

/-- The raymath function `Lerp(start, end, amount) = start + amount*(end - start)`. -/
def Lerp (start finish amount : ℚ) : ℚ :=
  start + amount * (finish - start)

/-- The C conversion `(int)x` of a `float`: truncation toward zero. -/
def floatToInt (x : ℚ) : ℤ :=
  if 0 ≤ x then ⌊x⌋ else ⌈x⌉

/-- The C conversion `(unsigned char)x` of a `float`: truncation, kept in `0..255`. -/
def floatToUChar (x : ℚ) : ℕ :=
  (floatToInt x).toNat % 256

/-- The raylib type `Color`: four `unsigned char` channels. -/
structure Color where
  r : ℕ
  g : ℕ
  b : ℕ
  a : ℕ
deriving DecidableEq

/-- Every channel of the colour is a value of `unsigned char`. -/
def Color.valid (c : Color) : Prop :=
  c.r ≤ 255 ∧ c.g ≤ 255 ∧ c.b ≤ 255 ∧ c.a ≤ 255

instance (c : Color) : Decidable c.valid := by
  unfold Color.valid
  infer_instance

/-- The raylib type `Vector2`. -/
structure Vector2 where
  x : ℚ
  y : ℚ
deriving DecidableEq

/-- The raylib type `Rectangle`. -/
structure Rectangle where
  x : ℚ
  y : ℚ
  width : ℚ
  height : ℚ
deriving DecidableEq

/-- The raylib function `CheckCollisionPointRec(point, rec)`. -/
def CheckCollisionPointRec (point : Vector2) (rec : Rectangle) : Bool :=
  decide (point.x ≥ rec.x) && decide (point.x < rec.x + rec.width) &&
    decide (point.y ≥ rec.y) && decide (point.y < rec.y + rec.height)

/-- Playback state of one audio stream of raylib. -/
inductive StreamState where
  | stopped
  | playing
  | paused
deriving DecidableEq

/-- The raylib type `Music`, reduced to what the program observes: the decoder context
pointer `ctxData` (`0` is `nullptr`; a `Music` whose load failed, and the zero value
`{0}`, have no audio buffer) and the playback state of its stream. -/
structure Music where
  ctxData : ℕ
  stream : StreamState
deriving DecidableEq

/-- The zero-initialised `Music` value `{0}`. -/
def Music.zero : Music := ⟨0, StreamState.stopped⟩

/-- The raylib type `Texture2D`, reduced to its `id` (`0` is the failed texture). -/
structure Texture2D where
  id : ℕ
deriving DecidableEq

/-- The raylib function `StopMusicStream`: no effect on a stream without a buffer. -/
def StopMusicStream (m : Music) : Music :=
  if m.ctxData = 0 then m else { m with stream := StreamState.stopped }

/-- The raylib function `PlayMusicStream`: no effect on a stream without a buffer. -/
def PlayMusicStream (m : Music) : Music :=
  if m.ctxData = 0 then m else { m with stream := StreamState.playing }

/-- The raylib function `PauseMusicStream`: no effect on a stream without a buffer. -/
def PauseMusicStream (m : Music) : Music :=
  if m.ctxData = 0 then m else { m with stream := StreamState.paused }

/-- The raylib function `ResumeMusicStream`: it marks the buffer as playing; no effect on
a stream without a buffer. -/
def ResumeMusicStream (m : Music) : Music :=
  if m.ctxData = 0 then m else { m with stream := StreamState.playing }

/-- The raylib function `IsMusicStreamPlaying`. -/
def IsMusicStreamPlaying (m : Music) : Bool :=
  decide (m.stream = StreamState.playing)

/-- Severity of a `TraceLog` message. -/
inductive LogLevel where
  | warning
  | error
deriving DecidableEq

/-- One call issued by the program to raylib.  Stream calls name the playlist index of
the track whose `music` is passed. -/
inductive Call where
  | FileExists (path : String)
  | LoadMusicStream (path : String)
  | LoadTexture (path : String)
  | LoadTextureFromImage
  | TraceLog (level : LogLevel) (message : String)
  | StopMusicStream (idx : ℕ)
  | PlayMusicStream (idx : ℕ)
  | SetMusicVolume (idx : ℕ) (volume : ℚ)
  | PauseMusicStream (idx : ℕ)
  | ResumeMusicStream (idx : ℕ)
  | UpdateMusicStream (idx : ℕ)
  | SeekMusicStream (idx : ℕ) (position : ℚ)
deriving DecidableEq

/-- Outcomes of the raylib queries made while one operation runs. -/
structure Env where
  /-- Result of `FileExists(path)`. -/
  FileExists : String → Bool
  /-- The `ctxData` of the `Music` returned by `LoadMusicStream(path)`; `0` is failure. -/
  LoadMusicStream : String → ℕ
  /-- The `id` of the texture returned by `LoadTexture(path)`; `0` is failure. -/
  LoadTexture : String → ℕ
  /-- The `id` returned by `LoadTextureFromImage(GenImageColor(512, 512, DARKGRAY))` in
  the conditional expression that first assigns `coverTex`. -/
  LoadTextureFromImage : ℕ
  /-- The `id` returned by the second placeholder call, made after a failed cover. -/
  LoadTextureFromImageAgain : ℕ

/-! ## Binary32 arithmetic -/

/-- Exponent of the binade of `x` in binary32: `⌊log₂ |x|⌋`, not below `-126` (the
subnormal numbers share the exponent of the smallest normal numbers). -/
def expF32 (x : ℚ) : ℤ := max (Int.log 2 |x|) (-126)

/-- Spacing of the binary32 numbers in the binade of `x`: `2 ^ (expF32 x - 23)`. -/
def ulpF32 (x : ℚ) : ℚ := (2 : ℚ) ^ (expF32 x - 23)

/-- Rounding to the nearest integer, ties to the even one. -/
def roundHalfEven (q : ℚ) : ℤ :=
  if q - ⌊q⌋ < 1 / 2 then ⌊q⌋
  else if 1 / 2 < q - ⌊q⌋ then ⌊q⌋ + 1
  else if ⌊q⌋ % 2 = 0 then ⌊q⌋ else ⌊q⌋ + 1

/-- Rounding of a real number to binary32: to the nearest binary32 number, ties to the one
with even significand, with gradual underflow.  There is no overflow to infinity: results
whose magnitude exceeds `maxF32` are outside the model. -/
def roundF32 (x : ℚ) : ℚ := (roundHalfEven (x / ulpF32 x) : ℚ) * ulpF32 x

/-- The largest finite binary32 number, `(2^24 - 1) · 2^104`. -/
def maxF32 : ℚ := (2 ^ 24 - 1) * 2 ^ 104

/-- The rational `x` is a finite binary32 number: rounding leaves it as it is and its
magnitude is at most `maxF32`. -/
def isF32 (x : ℚ) : Prop := roundF32 x = x ∧ |x| ≤ maxF32

instance (x : ℚ) : Decidable (isF32 x) := by
  unfold isF32
  infer_instance

/-! ## Helpers -/

/-- The function `FadeValue(from, to, speed)`. -/
def FadeValue (from_ to_ speed : ℚ) : ℚ :=
  if from_ < to_ then
    let from1 := roundF32 (from_ + speed)
    if from1 > to_ then to_ else from1
  else if from_ > to_ then
    let from1 := roundF32 (from_ - speed)
    if from1 < to_ then to_ else from1
  else from_

/-- One channel of `CustomColorLerp`:
`(unsigned char)Clamp((int)Lerp((float)c1, (float)c2, t), 0, 255)`. -/
def lerpChannel (c1 c2 : ℕ) (t : ℚ) : ℕ :=
  floatToUChar (Clamp ((floatToInt (Lerp (c1 : ℚ) (c2 : ℚ) t) : ℤ) : ℚ) 0 255)

/-- The function `CustomColorLerp(c1, c2, t)`. -/
def CustomColorLerp (c1 c2 : Color) (t : ℚ) : Color :=
  { r := lerpChannel c1.r c2.r t
    g := lerpChannel c1.g c2.g t
    b := lerpChannel c1.b c2.b t
    a := lerpChannel c1.a c2.a t }

/-- The struct `Track`. -/
structure Track where
  file : String
  title : String
  artist : String
  cover : String
  playlistTags : List String
  music : Music
  coverTex : Texture2D
  loaded : Bool := false
  errorMessage : String
deriving DecidableEq

/-- The global variables of the program, and the record of raylib calls. -/
structure State where
  playlist : List Track := []
  currentIndex : ℤ := -1
  volume : ℚ := 4 / 5
  seekPos : ℚ := 0
  draggingSeek : Bool := false
  selectedPlaylist : String := "All"
  globalTime : ℚ := 0
  playPulse : ℚ := 0
  hoverPulse : ℚ := 0
  calls : List Call := []

/-- The static initial values of the globals. -/
def State.initial : State := {}

/-- The expression `(int)playlist.size()`. -/
def State.size (s : State) : ℤ := (s.playlist.length : ℤ)

/-- Record one raylib call. -/
def State.call (s : State) (c : Call) : State :=
  { s with calls := s.calls ++ [c] }

/-- The function `LoadPlaylistHardcoded`: three `push_back`s, then `return true`. -/
def LoadPlaylistHardcoded (s : State) : Bool × State :=
  let a : Track :=
    { file := "Assets/Music/BabyBoy.mp3"
      title := "Oh My Little Baby Boy"
      artist := "Babe"
      cover := "https://imgjam3.jamendo.com/albums/a0/57/576/cover_500.jpg"
      playlistTags := ["Favourites", "Chill"]
      music := Music.zero
      coverTex := ⟨0⟩
      loaded := false
      errorMessage := "" }
  let b : Track :=
    { file := "assets/music/Sailor-Song.mp3"
      title := "Sailor Song"
      artist := "Gigi Perez"
      cover := "assets/art/sample_cover.png"
      playlistTags := ["Favourites", "Workout"]
      music := Music.zero
      coverTex := ⟨0⟩
      loaded := false
      errorMessage := "" }
  let c : Track :=
    { file := "assets/music/download.mp3"
      title := "Sample Track"
      artist := "Local Artist"
      cover := "assets/art/sample_cover2.png"
      playlistTags := ["Chill", "Workout"]
      music := Music.zero
      coverTex := ⟨0⟩
      loaded := false
      errorMessage := "" }
  (true, { s with playlist := ((s.playlist ++ [a]) ++ [b]) ++ [c] })

/-- The test `t.file.find("assets/") == 0`: the path starts with `assets/`. -/
def startsWithAssets (file : String) : Bool :=
  "assets/".toList.isPrefixOf file.toList

/-- The body of `LoadTrack` on a track that is not loaded: the result, the new value of
the track, and the raylib calls issued, in order. -/
def loadTrackBody (env : Env) (t : Track) : Bool × Track × List Call :=
  if startsWithAssets t.file && !env.FileExists t.file then
    let msg := "Local file not found: " ++ t.file
    (false, { t with errorMessage := msg },
      [Call.FileExists t.file, Call.TraceLog LogLevel.warning msg])
  else
    let probe : List Call := if startsWithAssets t.file then [Call.FileExists t.file] else []
    let t1 : Track := { t with music := ⟨env.LoadMusicStream t.file, StreamState.stopped⟩ }
    if t1.music.ctxData = 0 then
      let msg := "Audio load failed: " ++ t.file
      (false, { t1 with errorMessage := msg },
        probe ++ [Call.LoadMusicStream t.file, Call.TraceLog LogLevel.warning msg])
    else
      let coverExists := env.FileExists t.cover
      let t2 : Track :=
        { t1 with coverTex :=
            ⟨if coverExists then env.LoadTexture t.cover else env.LoadTextureFromImage⟩ }
      let calls2 : List Call :=
        probe ++ [Call.LoadMusicStream t.file, Call.FileExists t.cover,
          if coverExists then Call.LoadTexture t.cover else Call.LoadTextureFromImage]
      if t2.coverTex.id = 0 then
        let msg := "Failed to load cover: " ++ t.cover
        let t3 : Track := { t2 with coverTex := ⟨env.LoadTextureFromImageAgain⟩ }
        (true, { t3 with loaded := true, errorMessage := "" },
          calls2 ++ [Call.TraceLog LogLevel.warning msg, Call.LoadTextureFromImage])
      else
        (true, { t2 with loaded := true, errorMessage := "" }, calls2)

/-- The function `LoadTrack(idx)`. -/
def LoadTrack (env : Env) (idx : ℤ) (s : State) : Bool × State :=
  if idx < 0 ∨ idx ≥ s.size then (false, s)
  else
    match s.playlist[idx.toNat]? with
    | none => (false, s)
    | some t =>
      if t.loaded then (true, s)
      else
        let r := loadTrackBody env t
        (r.1, { s with playlist := s.playlist.set idx.toNat r.2.1, calls := s.calls ++ r.2.2 })

/-- Apply a raylib stream function to `playlist[i].music` and record the call. -/
def State.onMusic (s : State) (i : ℕ) (f : Music → Music) (c : Call) : State :=
  match s.playlist[i]? with
  | none => s
  | some t =>
    { s with playlist := s.playlist.set i { t with music := f t.music }, calls := s.calls ++ [c] }

/-- The condition `currentIndex >= 0 && currentIndex < (int)playlist.size() &&
playlist[currentIndex].loaded`. -/
def State.currentLoaded (s : State) : Bool :=
  decide (s.currentIndex ≥ 0) && decide (s.currentIndex < s.size) &&
    (match s.playlist[s.currentIndex.toNat]? with
     | none => false
     | some t => t.loaded)

/-- First statement of `PlayTrack`: `if (currentIndex >= 0 && currentIndex <
(int)playlist.size() && playlist[currentIndex].loaded) StopMusicStream(...)`. -/
def stopCurrent (s : State) : State :=
  if s.currentLoaded then
    s.onMusic s.currentIndex.toNat StopMusicStream (Call.StopMusicStream s.currentIndex.toNat)
  else s

/-- Last statement of `PlayTrack`: `if (LoadTrack(currentIndex)) { PlayMusicStream(...);
SetMusicVolume(..., volume); playPulse = 0.9f; } else { TraceLog(LOG_ERROR, ...); }`. -/
def loadAndStart (env : Env) (s : State) : State :=
  let r := LoadTrack env s.currentIndex s
  if r.1 then
    let s3 := r.2.onMusic r.2.currentIndex.toNat PlayMusicStream
      (Call.PlayMusicStream r.2.currentIndex.toNat)
    let s4 := s3.call (Call.SetMusicVolume s3.currentIndex.toNat s3.volume)
    { s4 with playPulse := 9 / 10 }
  else
    match r.2.playlist[r.2.currentIndex.toNat]? with
    | none => r.2
    | some t => r.2.call (Call.TraceLog LogLevel.error ("Could not play track: " ++ t.title))

/-- The function `PlayTrack(idx)`. -/
def PlayTrack (env : Env) (idx : ℤ) (s : State) : State :=
  if idx < 0 ∨ idx ≥ s.size then s
  else loadAndStart env { stopCurrent s with currentIndex := idx }

/-- The function `TogglePlayPause()`.  With `currentIndex >= 0` the program indexes
`playlist[currentIndex]` without a range test; an index past the end is undefined behaviour
in C++ and the embedding then leaves the state as it is; no reachable state has such an
index. -/
def TogglePlayPause (env : Env) (s : State) : State :=
  if s.currentIndex < 0 then
    if !s.playlist.isEmpty then PlayTrack env 0 s else s
  else
    match s.playlist[s.currentIndex.toNat]? with
    | none => s
    | some t =>
      let s1 :=
        if IsMusicStreamPlaying t.music then
          s.onMusic s.currentIndex.toNat PauseMusicStream
            (Call.PauseMusicStream s.currentIndex.toNat)
        else
          s.onMusic s.currentIndex.toNat ResumeMusicStream
            (Call.ResumeMusicStream s.currentIndex.toNat)
      { s1 with playPulse := 9 / 10 }

/-- The function `NextTrack()`. -/
def NextTrack (env : Env) (s : State) : State :=
  if !s.playlist.isEmpty then PlayTrack env (Int.tmod (s.currentIndex + 1) s.size) s else s

/-- The function `PrevTrack()`. -/
def PrevTrack (env : Env) (s : State) : State :=
  if !s.playlist.isEmpty then
    PlayTrack env (Int.tmod (s.currentIndex - 1 + s.size) s.size) s
  else s

/-- One transport operation, together with the outcomes of the loads it triggers. -/
inductive Op where
  | PlayTrack (env : Env) (idx : ℤ)
  | TogglePlayPause (env : Env)
  | NextTrack (env : Env)
  | PrevTrack (env : Env)

/-- Execute one transport operation. -/
def Op.apply : Op → State → State
  | Op.PlayTrack env idx, s => Spotify.PlayTrack env idx s
  | Op.TogglePlayPause env, s => Spotify.TogglePlayPause env s
  | Op.NextTrack env, s => Spotify.NextTrack env s
  | Op.PrevTrack env, s => Spotify.PrevTrack env s

/-- Execute a finite sequence of transport operations, first to last. -/
def run (ops : List Op) (s : State) : State :=
  ops.foldl (fun st op => op.apply st) s

/-- The state reached by the operations `ops` from an initial state: the playlist is
`pl`, `currentIndex` is `-1`, the other globals are those of `base`. -/
def reached (base : State) (pl : List Track) (ops : List Op) : State :=
  run ops { base with playlist := pl, currentIndex := -1 }

/-! ## The main loop -/

/-- The constant `screenW`. -/
def screenW : ℚ := 1280

/-- The constant `screenH`. -/
def screenH : ℚ := 760

/-- The rectangle `left`. -/
def left : Rectangle := ⟨18, 18, 300, screenH - 36⟩

/-- The rectangle `center`. -/
def center : Rectangle := ⟨left.x + left.width + 16, 18, screenW - left.width - 52, screenH - 140⟩

/-- The rectangle `bottom`. -/
def bottom : Rectangle := ⟨16, screenH - 108, screenW - 32, 90⟩

/-- The rectangle `btnPrev`. -/
def btnPrev : Rectangle := ⟨bottom.x + 80, bottom.y + 18, 52, 52⟩

/-- The rectangle `btnPlay`. -/
def btnPlay : Rectangle := ⟨bottom.x + 150, bottom.y + 10, 76, 76⟩

/-- The rectangle `btnNext`. -/
def btnNext : Rectangle := ⟨bottom.x + 240, bottom.y + 18, 52, 52⟩

/-- The rectangle `seekBar`. -/
def seekBar : Rectangle := ⟨bottom.x + 340, bottom.y + 36, bottom.width - 420, 18⟩

/-- The rectangle `playlistsButton`. -/
def playlistsButton : Rectangle := ⟨left.x + 16, left.y + 60, left.width - 32, 36⟩

/-- The rectangle `favouritesButton`. -/
def favouritesButton : Rectangle := ⟨left.x + 16, left.y + 104, left.width - 32, 36⟩

/-- The rectangle `chillButton`. -/
def chillButton : Rectangle := ⟨left.x + 16, left.y + 148, left.width - 32, 36⟩

/-- The rectangle `workoutButton`. -/
def workoutButton : Rectangle := ⟨left.x + 16, left.y + 192, left.width - 32, 36⟩

/-- The local variables of `main` that live across frames. -/
structure Locals where
  listHover : ℤ := -1
  selectedListIndex : ℤ := -1
  listScroll : ℚ := 0

/-- What raylib reports during one frame: the frame time, the pointer, the two button
events, the readbacks of a stream, and the outcomes of the loads of that frame. -/
structure FrameInput where
  /-- Result of `GetFrameTime()`. -/
  dt : ℚ
  /-- Result of `GetMousePosition()`. -/
  mouse : Vector2
  /-- Result of `IsMouseButtonPressed(MOUSE_LEFT_BUTTON)`. -/
  pressed : Bool
  /-- Result of `IsMouseButtonReleased(MOUSE_LEFT_BUTTON)`. -/
  released : Bool
  /-- Result of `GetMusicTimeLength(music)`. -/
  GetMusicTimeLength : Music → ℚ
  /-- Result of `GetMusicTimePlayed(music)`. -/
  GetMusicTimePlayed : Music → ℚ
  /-- Outcomes of the file queries and loads. -/
  env : Env

/-- The statements `globalTime += dt; playPulse = FadeValue(playPulse, 0.0f, dt * 1.8f);
hoverPulse = FadeValue(hoverPulse, 0.0f, dt * 1.4f);`. -/
def tickPulses (inp : FrameInput) (s : State) : State :=
  { s with
    globalTime := s.globalTime + inp.dt
    playPulse := FadeValue s.playPulse 0 (inp.dt * (9 / 5))
    hoverPulse := FadeValue s.hoverPulse 0 (inp.dt * (7 / 5)) }

/-- The statement `if (currentIndex >= 0 && currentIndex < (int)playlist.size() &&
playlist[currentIndex].loaded) { UpdateMusicStream(...); float len = ...; if (len > 0)
seekPos = GetMusicTimePlayed(...) / len; }`. -/
def streamReadback (inp : FrameInput) (s : State) : State :=
  if s.currentLoaded then
    match s.playlist[s.currentIndex.toNat]? with
    | none => s
    | some t =>
      let s1 := s.call (Call.UpdateMusicStream s.currentIndex.toNat)
      let len := inp.GetMusicTimeLength t.music
      if len > 0 then { s1 with seekPos := inp.GetMusicTimePlayed t.music / len } else s1
  else s

/-- The four playlist buttons inside `if (IsMouseButtonPressed(MOUSE_LEFT_BUTTON))`. -/
def pressPlaylistButtons (inp : FrameInput) (s : State) : State :=
  let s1 : State :=
    if CheckCollisionPointRec inp.mouse playlistsButton then
      { s with selectedPlaylist := "All" } else s
  let s2 : State :=
    if CheckCollisionPointRec inp.mouse favouritesButton then
      { s1 with selectedPlaylist := "Favourites" } else s1
  let s3 : State :=
    if CheckCollisionPointRec inp.mouse chillButton then
      { s2 with selectedPlaylist := "Chill" } else s2
  if CheckCollisionPointRec inp.mouse workoutButton then
    { s3 with selectedPlaylist := "Workout" } else s3

/-- The statement `if (CheckCollisionPointRec(mouse, btnPrev)) { PrevTrack();
playPulse = 0.5f; }`. -/
def pressPrev (inp : FrameInput) (s : State) : State :=
  if CheckCollisionPointRec inp.mouse btnPrev then
    { PrevTrack inp.env s with playPulse := 1 / 2 } else s

/-- The statement `if (CheckCollisionPointRec(mouse, btnPlay)) { TogglePlayPause();
playPulse = 0.9f; }`. -/
def pressPlay (inp : FrameInput) (s : State) : State :=
  if CheckCollisionPointRec inp.mouse btnPlay then
    { TogglePlayPause inp.env s with playPulse := 9 / 10 } else s

/-- The statement `if (CheckCollisionPointRec(mouse, btnNext)) { NextTrack();
playPulse = 0.5f; }`. -/
def pressNext (inp : FrameInput) (s : State) : State :=
  if CheckCollisionPointRec inp.mouse btnNext then
    { NextTrack inp.env s with playPulse := 1 / 2 } else s

/-- The statement `if (CheckCollisionPointRec(mouse, seekBar)) { draggingSeek = true; }`. -/
def pressSeekBar (inp : FrameInput) (s : State) : State :=
  if CheckCollisionPointRec inp.mouse seekBar then { s with draggingSeek := true } else s

/-- The statement `if (IsMouseButtonPressed(MOUSE_LEFT_BUTTON)) { ... }`. -/
def handlePress (inp : FrameInput) (s : State) : State :=
  if inp.pressed then
    pressSeekBar inp (pressNext inp (pressPlay inp (pressPrev inp (pressPlaylistButtons inp s))))
  else s

/-- The statement `if (IsMouseButtonReleased(MOUSE_LEFT_BUTTON)) draggingSeek = false;`. -/
def handleRelease (inp : FrameInput) (s : State) : State :=
  if inp.released then { s with draggingSeek := false } else s

/-- The statement `if (draggingSeek && currentIndex >= 0 && playlist[currentIndex].loaded)
{ float x = Clamp((mouse.x - seekBar.x) / seekBar.width, 0.0f, 1.0f); seekPos = x;
SeekMusicStream(..., seekPos * GetMusicTimeLength(...)); }`.  The index is not tested
against the size here; past the end the embedding leaves the state as it is. -/
def dragSeek (inp : FrameInput) (s : State) : State :=
  if s.draggingSeek && decide (s.currentIndex ≥ 0) then
    match s.playlist[s.currentIndex.toNat]? with
    | none => s
    | some t =>
      if t.loaded then
        let x := Clamp ((inp.mouse.x - seekBar.x) / seekBar.width) 0 1
        let s1 : State := { s with seekPos := x }
        s1.call (Call.SeekMusicStream s1.currentIndex.toNat
          (s1.seekPos * inp.GetMusicTimeLength t.music))
      else s
  else s

/-- The frame up to and including the handling of the two button events. -/
def afterInput (inp : FrameInput) (s : State) : State :=
  handleRelease inp (handlePress inp (streamReadback inp (tickPulses inp s)))

/-- The update part of one frame: everything before `BeginDrawing()`. -/
def frameUpdate (inp : FrameInput) (s : State) : State :=
  dragSeek inp (afterInput inp s)

/-- One row drawn in the track list: the store index `i`, its `displayIndex` and its
rectangle `rowRect`. -/
structure Row where
  index : ℕ
  displayIndex : ℤ
  rowRect : Rectangle

/-- The variables of the track-list loop. -/
structure ListLoop where
  displayIndex : ℤ
  selectedListIndex : ℤ
  state : State
  rows : List Row

/-- The filter test of the track-list loop, `true` when the row is skipped:
`selectedPlaylist != "All" && std::find(tags.begin(), tags.end(), selectedPlaylist) ==
tags.end()`. -/
def skipped (selectedPlaylist : String) (t : Track) : Bool :=
  decide (selectedPlaylist ≠ "All") && !t.playlistTags.contains selectedPlaylist

/-- The body of the track-list loop for the store index `i`; drawing calls are left
out. -/
def trackListBody (inp : FrameInput) (listScroll : ℚ) (acc : ListLoop) (i : ℕ) : ListLoop :=
  match acc.state.playlist[i]? with
  | none => acc
  | some t =>
    if skipped acc.state.selectedPlaylist t then acc
    else
      let rowY : ℚ := center.y + 60 - listScroll
      let rowH : ℚ := 80
      let rowRect : Rectangle :=
        ⟨center.x + 12, rowY + (acc.displayIndex : ℚ) * (rowH + 8), center.width - 24, rowH⟩
      let acc1 : ListLoop := { acc with rows := acc.rows ++ [⟨i, acc.displayIndex, rowRect⟩] }
      let acc2 : ListLoop :=
        if inp.pressed && CheckCollisionPointRec inp.mouse rowRect then
          { acc1 with
            selectedListIndex := acc1.displayIndex
            state := PlayTrack inp.env (i : ℤ) acc1.state }
        else acc1
      { acc2 with displayIndex := acc2.displayIndex + 1 }

/-- The track-list loop `for (size_t i = 0; i < playlist.size(); ++i)`, started with
`displayIndex = 0`. -/
def trackListLoop (inp : FrameInput) (loc : Locals) (s : State) : ListLoop :=
  (List.range s.playlist.length).foldl (trackListBody inp loc.listScroll)
    ⟨0, loc.selectedListIndex, s, []⟩

/-- The store indices shown by the track list, in the order drawn. -/
def displayed (inp : FrameInput) (loc : Locals) (s : State) : List ℕ :=
  (trackListLoop inp loc s).rows.map Row.index

/-- The body of the sidebar loop for the button `i` with rectangle `r`:
`if (CheckCollisionPointRec(mouse, r)) { listHover = i; hoverPulse = 1.0f; }`; drawing
calls are left out. -/
def sidebarBody (inp : FrameInput) (ls : Locals × State) (b : ℤ × Rectangle) :
    Locals × State :=
  if CheckCollisionPointRec inp.mouse b.2 then
    ({ ls.1 with listHover := b.1 }, { ls.2 with hoverPulse := 1 })
  else ls

/-- The sidebar loop `for (int i = 0; i < 4; i++)` over `listButtons`. -/
def sidebarLoop (inp : FrameInput) (ls : Locals × State) : Locals × State :=
  [((0 : ℤ), playlistsButton), (1, favouritesButton), (2, chillButton),
    (3, workoutButton)].foldl (sidebarBody inp) ls

/-- One iteration of the main loop: the update, then the sidebar loop and the track-list
loop of the drawing part.  The result is the locals and the state at the end of the
frame. -/
def frame (inp : FrameInput) (ls : Locals × State) : Locals × State :=
  let ls1 := sidebarLoop inp (ls.1, frameUpdate inp ls.2)
  let r := trackListLoop inp ls1.1 ls1.2
  ({ ls1.1 with selectedListIndex := r.selectedListIndex }, r.state)

/-! ## The filtered view of the specification -/

/-- The identity data of a track (file, title, artist, cover, tags). -/
def Track.descriptor (t : Track) : String × String × String × String × List String :=
  (t.file, t.title, t.artist, t.cover, t.playlistTags)

/-- The filtered view in the words of the specification: the indices of the store, in
store order, whose tag list contains `name`, and all indices for the name `All`. -/
def filteredView (pl : List Track) (name : String) : List ℕ :=
  (List.range pl.length).filter fun i =>
    decide (name = "All") ||
      (match pl[i]? with
       | some t => decide (name ∈ t.playlistTags)
       | none => false)

/-! ## Predicates on states -/

/-- The property "`currentIndex` is absent (`-1`) or a valid index of the playlist". -/
def IndexOk (s : State) : Prop :=
  s.currentIndex = -1 ∨ (0 ≤ s.currentIndex ∧ s.currentIndex < s.size)

/-- A track is consistent: a track that is not loaded has no audio buffer, and a `Music`
without audio buffer is stopped. -/
def TrackOk (t : Track) : Prop :=
  (t.loaded = false → t.music.ctxData = 0) ∧
  (t.music.ctxData = 0 → t.music.stream = StreamState.stopped)

/-- Every track is consistent and no stream is playing. -/
def Quiet (s : State) : Prop :=
  ∀ (j : ℕ) (t : Track), s.playlist[j]? = some t →
    TrackOk t ∧ t.music.stream ≠ StreamState.playing

/-- The invariant of the playback controller: `currentIndex` is absent or valid, every
track is consistent, and a stream that is playing belongs to the track at
`currentIndex`. -/
def Inv (s : State) : Prop :=
  IndexOk s ∧
  ∀ (j : ℕ) (t : Track), s.playlist[j]? = some t →
    TrackOk t ∧ (t.music.stream = StreamState.playing → (j : ℤ) = s.currentIndex)

/-- Every track of the list is as constructed at start-up: `loaded = false` and
`music = {0}`. -/
def Fresh (pl : List Track) : Prop :=
  ∀ t ∈ pl, t.loaded = false ∧ t.music = Music.zero

/-- The operations of the playback controller leave these parts of the state alone: the
seek fraction, the drag flag, the selected playlist and the identity data of every
track. -/
def SameSession (s s1 : State) : Prop :=
  s1.seekPos = s.seekPos ∧ s1.draggingSeek = s.draggingSeek ∧
  s1.selectedPlaylist = s.selectedPlaylist ∧
  ∀ j : ℕ, (s1.playlist[j]?).map Track.descriptor = (s.playlist[j]?).map Track.descriptor

/-- The filter test of the loop at store index `i`, read in the state `s`: `true` when
the row is drawn. -/
def visible (s : State) (i : ℕ) : Bool :=
  match s.playlist[i]? with
  | some t => !skipped s.selectedPlaylist t
  | none => false

/-! ## Concrete states, environments and frames -/

/-- The start-up state of the program: the globals at their static initial values and
the playlist filled by `LoadPlaylistHardcoded`. -/
def startup : State := (LoadPlaylistHardcoded State.initial).2

/-- An environment in which every file exists and every load succeeds. -/
def envAllGood : Env :=
  { FileExists := fun _ => true
    LoadMusicStream := fun _ => 1
    LoadTexture := fun _ => 1
    LoadTextureFromImage := 1
    LoadTextureFromImageAgain := 1 }

/-- An environment in which no file exists and every load fails. -/
def envAllBad : Env :=
  { FileExists := fun _ => false
    LoadMusicStream := fun _ => 0
    LoadTexture := fun _ => 0
    LoadTextureFromImage := 0
    LoadTextureFromImageAgain := 0 }

/-- An environment in which no file exists; loads that are attempted all the same
succeed. -/
def envNoFiles : Env :=
  { FileExists := fun _ => false
    LoadMusicStream := fun _ => 1
    LoadTexture := fun _ => 1
    LoadTextureFromImage := 1
    LoadTextureFromImageAgain := 1 }

/-- A state in the middle of a drag: track 0 of the start-up playlist is loaded and
playing and `draggingSeek` is set. -/
def dragState : State :=
  { PlayTrack envAllGood 0 startup with draggingSeek := true }

/-- A frame in which the button is held (neither pressed nor released in this frame), the
pointer is over the middle of the seek bar and the stream reports 50 s of 200 s. -/
def dragInput : FrameInput :=
  { dt := 1 / 60
    mouse := ⟨770, 697⟩
    pressed := false
    released := false
    GetMusicTimeLength := fun _ => 200
    GetMusicTimePlayed := fun _ => 50
    env := envAllGood }

/-- A frame in which the button is released while the pointer is far from the seek bar. -/
def releaseInput : FrameInput :=
  { dt := 1 / 60
    mouse := ⟨10, 10⟩
    pressed := false
    released := true
    GetMusicTimeLength := fun _ => 200
    GetMusicTimePlayed := fun _ => 50
    env := envAllGood }

/-! ## Basic facts about the operations -/

theorem onMusic_currentIndex (s : State) (i : ℕ) (f : Music → Music) (c : Call) :
    (s.onMusic i f c).currentIndex = s.currentIndex := by
  unfold State.onMusic
  split <;> rfl

theorem onMusic_length (s : State) (i : ℕ) (f : Music → Music) (c : Call) :
    (s.onMusic i f c).playlist.length = s.playlist.length := by
  unfold State.onMusic
  split <;> simp

theorem LoadTrack_currentIndex (env : Env) (idx : ℤ) (s : State) :
    (LoadTrack env idx s).2.currentIndex = s.currentIndex := by
  unfold LoadTrack
  split
  · rfl
  · split
    · rfl
    · split <;> rfl

theorem LoadTrack_length (env : Env) (idx : ℤ) (s : State) :
    (LoadTrack env idx s).2.playlist.length = s.playlist.length := by
  unfold LoadTrack
  split
  · rfl
  · split
    · rfl
    · split <;> simp

theorem stopCurrent_length (s : State) :
    (stopCurrent s).playlist.length = s.playlist.length := by
  unfold stopCurrent
  split
  · exact onMusic_length _ _ _ _
  · rfl

theorem loadAndStart_length (env : Env) (s : State) :
    (loadAndStart env s).playlist.length = s.playlist.length := by
  unfold loadAndStart
  simp only []
  split
  · simp only [State.call, onMusic_length, LoadTrack_length]
  · split
    · exact LoadTrack_length _ _ _
    · simp only [State.call, LoadTrack_length]

theorem loadAndStart_currentIndex (env : Env) (s : State) :
    (loadAndStart env s).currentIndex = s.currentIndex := by
  unfold loadAndStart
  simp only []
  split
  · simp only [State.call, onMusic_currentIndex, LoadTrack_currentIndex]
  · split
    · exact LoadTrack_currentIndex _ _ _
    · simp only [State.call, LoadTrack_currentIndex]

theorem PlayTrack_length (env : Env) (idx : ℤ) (s : State) :
    (PlayTrack env idx s).playlist.length = s.playlist.length := by
  unfold PlayTrack
  split
  · rfl
  · rw [loadAndStart_length]
    exact stopCurrent_length s

theorem PlayTrack_currentIndex (env : Env) (idx : ℤ) (s : State)
    (h0 : 0 ≤ idx) (h1 : idx < s.size) :
    (PlayTrack env idx s).currentIndex = idx := by
  unfold PlayTrack
  rw [if_neg (by omega), loadAndStart_currentIndex]

theorem PlayTrack_invalid (env : Env) (idx : ℤ) (s : State)
    (h : idx < 0 ∨ idx ≥ s.size) : PlayTrack env idx s = s := by
  unfold PlayTrack
  rw [if_pos h]

theorem TogglePlayPause_length (env : Env) (s : State) :
    (TogglePlayPause env s).playlist.length = s.playlist.length := by
  unfold TogglePlayPause
  split
  · split
    · exact PlayTrack_length _ _ _
    · rfl
  · split
    · rfl
    · split
      · exact onMusic_length _ _ _ _
      · exact onMusic_length _ _ _ _

theorem Op.apply_length (op : Op) (s : State) :
    (op.apply s).playlist.length = s.playlist.length := by
  cases op with
  | PlayTrack env idx => exact PlayTrack_length env idx s
  | TogglePlayPause env => exact TogglePlayPause_length env s
  | NextTrack env =>
    simp only [Op.apply, Spotify.NextTrack]
    split
    · exact PlayTrack_length _ _ _
    · rfl
  | PrevTrack env =>
    simp only [Op.apply, Spotify.PrevTrack]
    split
    · exact PlayTrack_length _ _ _
    · rfl

theorem PlayTrack_IndexOk (env : Env) (idx : ℤ) (s : State) (h : IndexOk s) :
    IndexOk (PlayTrack env idx s) := by
  by_cases hv : idx < 0 ∨ idx ≥ s.size
  · rw [PlayTrack_invalid env idx s hv]; exact h
  · have h0 : 0 ≤ idx := by omega
    have h1 : idx < s.size := by omega
    right
    rw [PlayTrack_currentIndex env idx s h0 h1]
    unfold State.size at h1 ⊢
    rw [PlayTrack_length]
    exact ⟨h0, h1⟩

theorem TogglePlayPause_IndexOk (env : Env) (s : State) (h : IndexOk s) :
    IndexOk (TogglePlayPause env s) := by
  unfold TogglePlayPause
  split
  · split
    · exact PlayTrack_IndexOk env 0 s h
    · exact h
  · split
    · exact h
    · have key : ∀ (f : Music → Music) (c : Call),
          IndexOk (s.onMusic s.currentIndex.toNat f c) := by
        intro f c
        unfold IndexOk State.size at h ⊢
        rw [onMusic_currentIndex, onMusic_length]
        exact h
      split
      · exact key _ _
      · exact key _ _

theorem Op.apply_IndexOk (op : Op) (s : State) (h : IndexOk s) : IndexOk (op.apply s) := by
  cases op with
  | PlayTrack env idx => exact PlayTrack_IndexOk env idx s h
  | TogglePlayPause env => exact TogglePlayPause_IndexOk env s h
  | NextTrack env =>
    simp only [Op.apply, Spotify.NextTrack]
    split
    · exact PlayTrack_IndexOk _ _ s h
    · exact h
  | PrevTrack env =>
    simp only [Op.apply, Spotify.PrevTrack]
    split
    · exact PlayTrack_IndexOk _ _ s h
    · exact h

theorem run_length (ops : List Op) (s : State) :
    (run ops s).playlist.length = s.playlist.length := by
  induction ops generalizing s with
  | nil => rfl
  | cons op rest ih =>
    simp only [run, List.foldl_cons] at ih ⊢
    rw [ih, Op.apply_length]

theorem run_IndexOk (ops : List Op) (s : State) (h : IndexOk s) : IndexOk (run ops s) := by
  induction ops generalizing s with
  | nil => exact h
  | cons op rest ih =>
    simp only [run, List.foldl_cons] at ih ⊢
    exact ih _ (Op.apply_IndexOk op s h)

/-! ## Tracks after each operation -/

theorem getElem?_set_cases {α : Type} (l : List α) (i j : ℕ) (a t : α)
    (h : (l.set i a)[j]? = some t) :
    (j = i ∧ t = a ∧ i < l.length) ∨ (j ≠ i ∧ l[j]? = some t) := by
  rw [List.getElem?_set] at h
  split at h
  · next hij =>
    split at h
    · next hlt =>
      left
      exact ⟨hij.symm, (Option.some.inj h).symm, hlt⟩
    · exact absurd h (by simp)
  · next hij =>
    right
    exact ⟨fun e => hij e.symm, h⟩

theorem onMusic_track (s : State) (i : ℕ) (f : Music → Music) (c : Call) (j : ℕ) (t : Track)
    (h : (s.onMusic i f c).playlist[j]? = some t) :
    (j = i ∧ ∃ t0, s.playlist[i]? = some t0 ∧ t = { t0 with music := f t0.music }) ∨
    (j ≠ i ∧ s.playlist[j]? = some t) := by
  unfold State.onMusic at h
  split at h
  · next hnone =>
    by_cases hji : j = i
    · rw [hji, hnone] at h
      exact absurd h (by simp)
    · exact Or.inr ⟨hji, h⟩
  · next t0 hsome =>
    rcases getElem?_set_cases _ _ _ _ _ h with ⟨h1, h2, _⟩ | ⟨h1, h2⟩
    · exact Or.inl ⟨h1, t0, hsome, h2⟩
    · exact Or.inr ⟨h1, h2⟩

theorem onMusic_at (s : State) (i : ℕ) (f : Music → Music) (c : Call) (t0 : Track)
    (h : s.playlist[i]? = some t0) :
    (s.onMusic i f c).playlist[i]? = some { t0 with music := f t0.music } := by
  unfold State.onMusic
  rw [h]
  have hlt : i < s.playlist.length := by
    rcases List.getElem?_eq_some.mp h with ⟨hlt, _⟩
    exact hlt
  simp only []
  rw [List.getElem?_set, if_pos rfl, if_pos hlt]

theorem onMusic_other (s : State) (i : ℕ) (f : Music → Music) (c : Call) (j : ℕ)
    (h : j ≠ i) : (s.onMusic i f c).playlist[j]? = s.playlist[j]? := by
  unfold State.onMusic
  split
  · rfl
  · simp only []
    exact List.getElem?_set_ne (fun e => h e.symm)

theorem LoadTrack_of_loaded (env : Env) (idx : ℤ) (s : State) (t : Track)
    (h0 : 0 ≤ idx) (h1 : idx < s.size) (ht : s.playlist[idx.toNat]? = some t)
    (hl : t.loaded = true) : LoadTrack env idx s = (true, s) := by
  unfold LoadTrack
  rw [if_neg (by omega), ht]
  simp only []
  rw [if_pos hl]

theorem LoadTrack_of_unloaded (env : Env) (idx : ℤ) (s : State) (t : Track)
    (h0 : 0 ≤ idx) (h1 : idx < s.size) (ht : s.playlist[idx.toNat]? = some t)
    (hl : t.loaded = false) :
    LoadTrack env idx s =
      ((loadTrackBody env t).1,
        { s with playlist := s.playlist.set idx.toNat (loadTrackBody env t).2.1,
                 calls := s.calls ++ (loadTrackBody env t).2.2 }) := by
  unfold LoadTrack
  rw [if_neg (by omega), ht]
  simp only []
  rw [if_neg (by simp [hl])]

theorem LoadTrack_track (env : Env) (idx : ℤ) (s : State) (j : ℕ) (t : Track)
    (h : (LoadTrack env idx s).2.playlist[j]? = some t) :
    s.playlist[j]? = some t ∨
    (j = idx.toNat ∧ 0 ≤ idx ∧ ∃ t0, s.playlist[j]? = some t0 ∧ t0.loaded = false ∧
      t = (loadTrackBody env t0).2.1) := by
  unfold LoadTrack at h
  split at h
  · exact Or.inl h
  · next hv =>
    split at h
    · exact Or.inl h
    · next t0 ht0 =>
      split at h
      · exact Or.inl h
      · next hl =>
        rcases getElem?_set_cases _ _ _ _ _ h with ⟨h1, h2, _⟩ | ⟨h1, h2⟩
        · right
          refine ⟨h1, by omega, t0, by rw [h1]; exact ht0, by simpa using hl, h2⟩
        · exact Or.inl h2

theorem LoadTrack_other (env : Env) (idx : ℤ) (s : State) (j : ℕ) (h : j ≠ idx.toNat) :
    (LoadTrack env idx s).2.playlist[j]? = s.playlist[j]? := by
  unfold LoadTrack
  split
  · rfl
  · split
    · rfl
    · split
      · rfl
      · simp only []
        exact List.getElem?_set_ne (fun e => h e.symm)

theorem loadTrackBody_ok (env : Env) (t : Track) (hl : t.loaded = false)
    (h : TrackOk t ∧ t.music.stream ≠ StreamState.playing) :
    TrackOk (loadTrackBody env t).2.1 ∧
      (loadTrackBody env t).2.1.music.stream ≠ StreamState.playing := by
  obtain ⟨⟨h1, h2⟩, h3⟩ := h
  unfold loadTrackBody TrackOk
  simp only []
  split_ifs <;> simp_all

theorem streamFn_ok (f : Music → Music) (t : Track)
    (hf : (f t.music).ctxData = t.music.ctxData ∧ (t.music.ctxData = 0 → f t.music = t.music))
    (h : TrackOk t) : TrackOk { t with music := f t.music } := by
  refine ⟨fun hl => ?_, fun hc => ?_⟩
  · simp only [] at hl ⊢
    rw [hf.1]
    exact h.1 hl
  · simp only [] at hc ⊢
    rw [hf.1] at hc
    rw [hf.2 hc]
    exact h.2 hc

theorem StopMusicStream_spec (m : Music) :
    (StopMusicStream m).ctxData = m.ctxData ∧ (m.ctxData = 0 → StopMusicStream m = m) := by
  unfold StopMusicStream
  split <;> simp_all

theorem PlayMusicStream_spec (m : Music) :
    (PlayMusicStream m).ctxData = m.ctxData ∧ (m.ctxData = 0 → PlayMusicStream m = m) := by
  unfold PlayMusicStream
  split <;> simp_all

theorem PauseMusicStream_spec (m : Music) :
    (PauseMusicStream m).ctxData = m.ctxData ∧ (m.ctxData = 0 → PauseMusicStream m = m) := by
  unfold PauseMusicStream
  split <;> simp_all

theorem ResumeMusicStream_spec (m : Music) :
    (ResumeMusicStream m).ctxData = m.ctxData ∧
      (m.ctxData = 0 → ResumeMusicStream m = m) := by
  unfold ResumeMusicStream
  split <;> simp_all

theorem StopMusicStream_not_playing (m : Music)
    (h : m.ctxData = 0 → m.stream = StreamState.stopped) :
    (StopMusicStream m).stream = StreamState.stopped := by
  unfold StopMusicStream
  split
  · next h0 => exact h h0
  · rfl

theorem currentLoaded_iff (s : State) :
    s.currentLoaded = true ↔
      0 ≤ s.currentIndex ∧ s.currentIndex < s.size ∧
        ∃ t, s.playlist[s.currentIndex.toNat]? = some t ∧ t.loaded = true := by
  unfold State.currentLoaded
  cases h : s.playlist[s.currentIndex.toNat]? with
  | none => simp
  | some t => simp [and_assoc]

theorem stopCurrent_quiet (s : State) (h : Inv s) : Quiet (stopCurrent s) := by
  obtain ⟨_, htr⟩ := h
  unfold stopCurrent
  split
  · next hcl =>
    obtain ⟨hc0, _, _⟩ := (currentLoaded_iff s).mp hcl
    intro j t hj
    rcases onMusic_track _ _ _ _ _ _ hj with ⟨_, t0, ht0, rfl⟩ | ⟨hne, hj0⟩
    · have hok := (htr _ _ ht0).1
      refine ⟨streamFn_ok _ _ (StopMusicStream_spec _) hok, ?_⟩
      simp only []
      rw [StopMusicStream_not_playing _ hok.2]
      decide
    · refine ⟨(htr _ _ hj0).1, fun hp => hne ?_⟩
      have := (htr _ _ hj0).2 hp
      omega
  · next hcl =>
    intro j t hj
    refine ⟨(htr _ _ hj).1, fun hp => ?_⟩
    have hjc := (htr _ _ hj).2 hp
    have hlt : j < s.playlist.length := by
      rcases List.getElem?_eq_some.mp hj with ⟨hlt, _⟩
      exact hlt
    have hjn : s.currentIndex.toNat = j := by omega
    have hnl : t.loaded = false := by
      cases hl : t.loaded with
      | false => rfl
      | true =>
        exfalso
        apply hcl
        rw [currentLoaded_iff]
        refine ⟨by omega, by unfold State.size; omega, t, by rw [hjn]; exact hj, hl⟩
    have hok := (htr _ _ hj).1
    rw [hok.2 (hok.1 hnl)] at hp
    exact absurd hp (by decide)

theorem LoadTrack_quiet (env : Env) (idx : ℤ) (s : State) (h : Quiet s) :
    Quiet (LoadTrack env idx s).2 := by
  intro j t hj
  rcases LoadTrack_track _ _ _ _ _ hj with h0 | ⟨_, _, t0, ht0, hl, rfl⟩
  · exact h _ _ h0
  · exact loadTrackBody_ok env t0 hl (h _ _ ht0)

theorem loadAndStart_inv (env : Env) (s : State) (h : Quiet s)
    (h0 : 0 ≤ s.currentIndex) (h1 : s.currentIndex < s.size) : Inv (loadAndStart env s) := by
  have hq := LoadTrack_quiet env s.currentIndex s h
  have hidx : IndexOk (loadAndStart env s) := by
    right
    unfold State.size at h1 ⊢
    rw [loadAndStart_currentIndex, loadAndStart_length]
    exact ⟨h0, h1⟩
  refine ⟨hidx, ?_⟩
  rw [loadAndStart_currentIndex]
  unfold loadAndStart
  simp only []
  split
  · intro j t hj
    simp only [State.call] at hj
    rcases onMusic_track _ _ _ _ _ _ hj with ⟨hji, t0, ht0, rfl⟩ | ⟨_, hj0⟩
    · refine ⟨streamFn_ok _ _ (PlayMusicStream_spec _) (hq _ _ ht0).1, fun _ => ?_⟩
      rw [hji, LoadTrack_currentIndex]
      omega
    · exact ⟨(hq _ _ hj0).1, fun hp => absurd hp (hq _ _ hj0).2⟩
  · have hsame : ∀ (j : ℕ) (t : Track),
        (LoadTrack env s.currentIndex s).2.playlist[j]? = some t →
        TrackOk t ∧ (t.music.stream = StreamState.playing → (j : ℤ) = s.currentIndex) :=
      fun j t hj => ⟨(hq _ _ hj).1, fun hp => absurd hp (hq _ _ hj).2⟩
    split
    · exact hsame
    · exact hsame

theorem PlayTrack_inv (env : Env) (idx : ℤ) (s : State) (h : Inv s) :
    Inv (PlayTrack env idx s) := by
  unfold PlayTrack
  split
  · exact h
  · next hv =>
    apply loadAndStart_inv
    · exact stopCurrent_quiet s h
    · show 0 ≤ idx
      omega
    · show idx < ((stopCurrent s).playlist.length : ℤ)
      rw [stopCurrent_length]
      unfold State.size at hv
      omega

theorem TogglePlayPause_inv (env : Env) (s : State) (h : Inv s) :
    Inv (TogglePlayPause env s) := by
  unfold TogglePlayPause
  split
  · split
    · exact PlayTrack_inv env 0 s h
    · exact h
  · next hc =>
    split
    · exact h
    · have key : ∀ (f : Music → Music) (c : Call),
          (∀ m : Music, (f m).ctxData = m.ctxData ∧ (m.ctxData = 0 → f m = m)) →
          Inv { s.onMusic s.currentIndex.toNat f c with playPulse := 9 / 10 } := by
        intro f c hf
        obtain ⟨hi, htr⟩ := h
        refine ⟨?_, ?_⟩
        · unfold IndexOk State.size at hi ⊢
          simp only [onMusic_currentIndex, onMusic_length]
          exact hi
        · intro j t hj
          simp only [onMusic_currentIndex]
          simp only [] at hj
          rcases onMusic_track _ _ _ _ _ _ hj with ⟨hji, t0, ht0, rfl⟩ | ⟨_, hj0⟩
          · refine ⟨streamFn_ok _ _ (hf _) (htr _ _ ht0).1, fun _ => ?_⟩
            rw [hji]
            omega
          · exact htr _ _ hj0
      split
      · exact key _ _ PauseMusicStream_spec
      · exact key _ _ ResumeMusicStream_spec

theorem Op.apply_inv (op : Op) (s : State) (h : Inv s) : Inv (op.apply s) := by
  cases op with
  | PlayTrack env idx => exact PlayTrack_inv env idx s h
  | TogglePlayPause env => exact TogglePlayPause_inv env s h
  | NextTrack env =>
    simp only [Op.apply, Spotify.NextTrack]
    split
    · exact PlayTrack_inv _ _ s h
    · exact h
  | PrevTrack env =>
    simp only [Op.apply, Spotify.PrevTrack]
    split
    · exact PlayTrack_inv _ _ s h
    · exact h

theorem run_inv (ops : List Op) (s : State) (h : Inv s) : Inv (run ops s) := by
  induction ops generalizing s with
  | nil => exact h
  | cons op rest ih =>
    simp only [run, List.foldl_cons] at ih ⊢
    exact ih _ (Op.apply_inv op s h)

theorem Fresh.inv (base : State) (pl : List Track) (h : Fresh pl) :
    Inv { base with playlist := pl, currentIndex := -1 } := by
  refine ⟨Or.inl rfl, fun j t hj => ?_⟩
  have hmem : t ∈ pl := by
    rcases List.getElem?_eq_some.mp hj with ⟨hlt, he⟩
    rw [← he]
    exact List.getElem_mem hlt
  obtain ⟨_, hm⟩ := h t hmem
  refine ⟨⟨fun _ => by rw [hm]; rfl, fun _ => by rw [hm]; rfl⟩, fun hp => ?_⟩
  rw [hm] at hp
  exact absurd hp (by decide)

theorem onMusic_calls (s : State) (i : ℕ) (f : Music → Music) (c : Call) :
    ∃ rest, (s.onMusic i f c).calls = s.calls ++ rest := by
  unfold State.onMusic
  split
  · exact ⟨[], by simp⟩
  · exact ⟨[c], rfl⟩

theorem LoadTrack_calls (env : Env) (idx : ℤ) (s : State) :
    ∃ rest, (LoadTrack env idx s).2.calls = s.calls ++ rest := by
  unfold LoadTrack
  split
  · exact ⟨[], by simp⟩
  · split
    · exact ⟨[], by simp⟩
    · split
      · exact ⟨[], by simp⟩
      · exact ⟨_, rfl⟩

theorem loadAndStart_calls (env : Env) (s : State) :
    ∃ rest, (loadAndStart env s).calls = s.calls ++ rest := by
  obtain ⟨r1, h1⟩ := LoadTrack_calls env s.currentIndex s
  unfold loadAndStart
  simp only []
  split
  · obtain ⟨r2, h2⟩ := onMusic_calls (LoadTrack env s.currentIndex s).2
      (LoadTrack env s.currentIndex s).2.currentIndex.toNat PlayMusicStream
      (Call.PlayMusicStream (LoadTrack env s.currentIndex s).2.currentIndex.toNat)
    simp only [State.call]
    rw [h2, h1, List.append_assoc, List.append_assoc]
    exact ⟨_, rfl⟩
  · split
    · exact ⟨r1, h1⟩
    · simp only [State.call]
      rw [h1, List.append_assoc]
      exact ⟨_, rfl⟩

theorem loadAndStart_other (env : Env) (s : State) (j : ℕ) (h : j ≠ s.currentIndex.toNat) :
    (loadAndStart env s).playlist[j]? = s.playlist[j]? := by
  unfold loadAndStart
  simp only []
  split
  · simp only [State.call]
    rw [onMusic_other _ _ _ _ _ (by rw [LoadTrack_currentIndex]; exact h)]
    exact LoadTrack_other _ _ _ _ h
  · split
    · exact LoadTrack_other _ _ _ _ h
    · simp only [State.call]
      exact LoadTrack_other _ _ _ _ h

theorem loadTrackBody_loaded (env : Env) (t : Track) (hl : t.loaded = false) :
    (loadTrackBody env t).2.1.loaded = (loadTrackBody env t).1 := by
  unfold loadTrackBody
  simp only []
  split_ifs <;> simp_all

theorem loadTrackBody_missing (env : Env) (t : Track)
    (hp : startsWithAssets t.file = true) (hm : env.FileExists t.file = false) :
    loadTrackBody env t =
      (false, { t with errorMessage := "Local file not found: " ++ t.file },
        [Call.FileExists t.file,
          Call.TraceLog LogLevel.warning ("Local file not found: " ++ t.file)]) := by
  unfold loadTrackBody
  rw [if_pos (by simp [hp, hm])]

theorem loadTrackBody_success (env : Env) (t : Track)
    (hp : (startsWithAssets t.file && !env.FileExists t.file) = false)
    (hm : env.LoadMusicStream t.file ≠ 0) :
    (loadTrackBody env t).1 = true ∧ (loadTrackBody env t).2.1.loaded = true ∧
      (loadTrackBody env t).2.1.music = ⟨env.LoadMusicStream t.file, StreamState.stopped⟩ := by
  unfold loadTrackBody
  rw [if_neg (by simp [hp])]
  simp only []
  rw [if_neg hm]
  split_ifs <;> simp

theorem stopCurrent_at_unloaded (s : State) (j : ℕ) (t : Track)
    (ht : s.playlist[j]? = some t) (hl : t.loaded = false) :
    (stopCurrent s).playlist[j]? = some t := by
  unfold stopCurrent
  split
  · next hcl =>
    obtain ⟨_, _, tc, htc, hlc⟩ := (currentLoaded_iff s).mp hcl
    rw [onMusic_other]
    · exact ht
    · intro e
      rw [← e, ht] at htc
      rw [← Option.some.inj htc, hl] at hlc
      exact absurd hlc (by decide)
  · exact ht

theorem stopCurrent_calls (s : State) :
    (stopCurrent s).calls =
      s.calls ++ (if s.currentLoaded then [Call.StopMusicStream s.currentIndex.toNat] else []) := by
  unfold stopCurrent
  split
  · next hcl =>
    obtain ⟨_, _, tc, htc, _⟩ := (currentLoaded_iff s).mp hcl
    unfold State.onMusic
    rw [htc]
  · simp

theorem stopCurrent_currentIndex (s : State) :
    (stopCurrent s).currentIndex = s.currentIndex := by
  unfold stopCurrent
  split
  · exact onMusic_currentIndex _ _ _ _
  · rfl

theorem PlayTrack_success (env : Env) (idx : ℤ) (s : State) (t : Track)
    (h0 : 0 ≤ idx) (h1 : idx < s.size) (ht : s.playlist[idx.toNat]? = some t)
    (hl : t.loaded = false)
    (hp : (startsWithAssets t.file && !env.FileExists t.file) = false)
    (hm : env.LoadMusicStream t.file ≠ 0) :
    (PlayTrack env idx s).currentIndex = idx ∧
    ∃ t1, (PlayTrack env idx s).playlist[idx.toNat]? = some t1 ∧ t1.loaded = true ∧
      t1.music.stream = StreamState.playing := by
  refine ⟨PlayTrack_currentIndex env idx s h0 h1, ?_⟩
  obtain ⟨hb1, hb2, hb3⟩ := loadTrackBody_success env t hp hm
  have hst := stopCurrent_at_unloaded s _ t ht hl
  have hlt : idx.toNat < (stopCurrent s).playlist.length := by
    rcases List.getElem?_eq_some.mp hst with ⟨hlt, _⟩
    exact hlt
  have hload := LoadTrack_of_unloaded env idx { stopCurrent s with currentIndex := idx } t h0
    (by unfold State.size at h1 ⊢; simp only []; rw [stopCurrent_length]; exact h1) hst hl
  unfold PlayTrack
  rw [if_neg (by omega)]
  unfold loadAndStart
  simp only []
  rw [hload]
  simp only []
  rw [if_pos hb1]
  simp only [State.call]
  refine ⟨{ (loadTrackBody env t).2.1 with
    music := PlayMusicStream (loadTrackBody env t).2.1.music }, ?_, hb2, ?_⟩
  · apply onMusic_at
    simp only []
    rw [List.getElem?_set, if_pos rfl, if_pos hlt]
  · simp only []
    rw [hb3]
    unfold PlayMusicStream
    rw [if_neg hm]

theorem notFound_ne_empty (f : String) : ("Local file not found: " ++ f) ≠ "" := by
  intro h
  have h2 := congrArg String.length h
  rw [String.length_append] at h2
  have h3 : "Local file not found: ".length = 22 := by decide
  have h4 : "".length = 0 := by decide
  omega

theorem PlayTrack_other (env : Env) (idx : ℤ) (s : State) (j : ℕ)
    (hj : j ≠ idx.toNat) (hcur : s.currentLoaded = false) :
    (PlayTrack env idx s).playlist[j]? = s.playlist[j]? := by
  unfold PlayTrack
  split
  · rfl
  · rw [loadAndStart_other _ _ _ hj]
    simp only []
    unfold stopCurrent
    rw [hcur]
    rfl

/-- The outcome of `PlayTrack(idx)` on a track that is not loaded and whose audio file is
a missing local asset, from a state that satisfies the controller invariant. -/
theorem PlayTrack_missing (env : Env) (idx : ℤ) (s : State) (t : Track) (hinv : Inv s)
    (h0 : 0 ≤ idx) (h1 : idx < s.size) (ht : s.playlist[idx.toNat]? = some t)
    (hl : t.loaded = false) (hp : startsWithAssets t.file = true)
    (hm : env.FileExists t.file = false) :
    (PlayTrack env idx s).currentIndex = idx ∧
    (PlayTrack env idx s).playlist[idx.toNat]?
      = some { t with errorMessage := "Local file not found: " ++ t.file } ∧
    (PlayTrack env idx s).calls =
      s.calls ++ (if s.currentLoaded then [Call.StopMusicStream s.currentIndex.toNat] else [])
        ++ [Call.FileExists t.file,
            Call.TraceLog LogLevel.warning ("Local file not found: " ++ t.file),
            Call.TraceLog LogLevel.error ("Could not play track: " ++ t.title)] ∧
    (∀ (j : ℕ) (tj : Track), (PlayTrack env idx s).playlist[j]? = some tj →
      tj.music.stream ≠ StreamState.playing) := by
  refine ⟨PlayTrack_currentIndex env idx s h0 h1, ?_⟩
  have hst := stopCurrent_at_unloaded s _ t ht hl
  have hlt : idx.toNat < (stopCurrent s).playlist.length := by
    rcases List.getElem?_eq_some.mp hst with ⟨hlt, _⟩
    exact hlt
  have hload := LoadTrack_of_unloaded env idx { stopCurrent s with currentIndex := idx } t h0
    (by unfold State.size at h1 ⊢; simp only []; rw [stopCurrent_length]; exact h1) hst hl
  have hquiet : Quiet (LoadTrack env idx { stopCurrent s with currentIndex := idx }).2 :=
    LoadTrack_quiet env idx _ (stopCurrent_quiet s hinv)
  rw [hload] at hquiet
  have hplay : PlayTrack env idx s =
      loadAndStart env { stopCurrent s with currentIndex := idx } := by
    unfold PlayTrack
    rw [if_neg (by omega)]
  rw [hplay]
  unfold loadAndStart
  simp only []
  rw [hload]
  rw [loadTrackBody_missing env t hp hm] at hquiet ⊢
  simp only [] at hquiet ⊢
  rw [if_neg (by simp)]
  have hget : ((stopCurrent s).playlist.set idx.toNat
      { t with errorMessage := "Local file not found: " ++ t.file })[idx.toNat]?
        = some { t with errorMessage := "Local file not found: " ++ t.file } := by
    rw [List.getElem?_set, if_pos rfl, if_pos hlt]
  rw [hget]
  simp only [State.call]
  refine ⟨hget, ?_, fun j tj hj => (hquiet j tj hj).2⟩
  rw [stopCurrent_calls]
  simp only [List.append_assoc, List.cons_append, List.nil_append]

/-! ## C1: `NextTrack` and `PrevTrack` are inverse and wrap around -/

/-- C1. On a playlist of size `n ≥ 1` with `currentIndex = i`, `0 ≤ i < n`, the call
`NextTrack()` followed by `PrevTrack()` leaves `currentIndex = i` whatever the outcome of
the loads; `NextTrack()` from `i = n - 1` gives index `0` and `PrevTrack()` from `i = 0`
gives index `n - 1`. -/
theorem next_prev_inverse (env1 env2 : Env) (s : State) (i : ℤ)
    (hn : 1 ≤ s.size) (hcur : s.currentIndex = i) (h0 : 0 ≤ i) (h1 : i < s.size) :
    (PrevTrack env2 (NextTrack env1 s)).currentIndex = i ∧
    (i = s.size - 1 → (NextTrack env1 s).currentIndex = 0) ∧
    (i = 0 → (PrevTrack env2 s).currentIndex = s.size - 1) := by
  have hne : s.playlist.isEmpty = false := by
    cases hp : s.playlist with
    | nil => simp [State.size, hp] at hn
    | cons a l => rfl
  have hsz : ∀ env idx, (PlayTrack env idx s).size = s.size := by
    intro env idx
    simp only [State.size, PlayTrack_length]
  have hmodlt : ∀ a : ℤ, 0 ≤ a → 0 ≤ Int.tmod a s.size ∧ Int.tmod a s.size < s.size := by
    intro a ha
    rw [Int.tmod_eq_emod ha (by omega)]
    exact ⟨Int.emod_nonneg _ (by omega), Int.emod_lt_of_pos _ (by omega)⟩
  have hnext : (NextTrack env1 s).currentIndex = Int.tmod (i + 1) s.size := by
    unfold NextTrack
    rw [hne, hcur]
    simp only [Bool.not_false, if_true]
    exact PlayTrack_currentIndex _ _ _ (hmodlt _ (by omega)).1 (hmodlt _ (by omega)).2
  have hnextv : Int.tmod (i + 1) s.size = if i + 1 = s.size then 0 else i + 1 := by
    rw [Int.tmod_eq_emod (by omega) (by omega)]
    split
    · next h => rw [h, Int.emod_self]
    · next h => exact Int.emod_eq_of_lt (by omega) (by omega)
  have hprev : ∀ (t : State) (j : ℤ), t.size = s.size → t.currentIndex = j → 0 ≤ j →
      j < s.size → (PrevTrack env2 t).currentIndex = if j = 0 then s.size - 1 else j - 1 := by
    intro t j ht hj hj0 hj1
    have hte : t.playlist.isEmpty = false := by
      cases hp : t.playlist with
      | nil =>
        have e : t.size = 0 := by simp [State.size, hp]
        omega
      | cons a l => rfl
    have hval : Int.tmod (j - 1 + s.size) s.size = if j = 0 then s.size - 1 else j - 1 := by
      rw [Int.tmod_eq_emod (by omega) (by omega)]
      split
      · next h =>
        have e : j - 1 + s.size = s.size - 1 := by omega
        rw [e]
        exact Int.emod_eq_of_lt (by omega) (by omega)
      · next h =>
        rw [Int.add_emod_self]
        exact Int.emod_eq_of_lt (by omega) (by omega)
    unfold PrevTrack
    rw [hte, hj, ht]
    simp only [Bool.not_false, if_true]
    rw [PlayTrack_currentIndex _ _ _ (by rw [hval]; split <;> omega)
      (by rw [ht, hval]; split <;> omega)]
    exact hval
  refine ⟨?_, ?_, ?_⟩
  · rw [hprev (NextTrack env1 s) (Int.tmod (i + 1) s.size) ?_ hnext
      (hmodlt _ (by omega)).1 (hmodlt _ (by omega)).2]
    · rw [hnextv]
      split
      · next h => rw [if_pos rfl]; omega
      · next h => rw [if_neg (by omega)]; omega
    · unfold NextTrack
      rw [hne]
      simp only [Bool.not_false, if_true]
      exact hsz _ _
  · intro hi
    rw [hnext, hnextv, if_pos (by omega)]
  · intro hi
    rw [hprev s i rfl hcur h0 h1, if_pos hi]

/-- C1 on the start-up playlist (three tracks), the first load failing and the second
succeeding: from index 2, `NextTrack` wraps to 0 and `PrevTrack` returns to 2; from
index 0, `PrevTrack` wraps to 2. -/
theorem next_prev_inverse_witness :
    (PrevTrack envAllGood
        (NextTrack envAllBad { startup with currentIndex := 2 })).currentIndex = 2 ∧
    (NextTrack envAllBad { startup with currentIndex := 2 }).currentIndex = 0 ∧
    (PrevTrack envAllGood { startup with currentIndex := 0 }).currentIndex
      = State.size { startup with currentIndex := 0 } - 1 :=
  ⟨(next_prev_inverse envAllBad envAllGood { startup with currentIndex := 2 } 2
      (by decide) rfl (by decide) (by decide)).1,
    (next_prev_inverse envAllBad envAllGood { startup with currentIndex := 2 } 2
      (by decide) rfl (by decide) (by decide)).2.1 (by decide),
    (next_prev_inverse envAllBad envAllGood { startup with currentIndex := 0 } 0
      (by decide) rfl (by decide) (by decide)).2.2 rfl⟩

/-! ## C4: `currentIndex` is absent or valid -/

/-- C4. Starting from `currentIndex = -1` on any playlist (of any size, in any load
state), after any finite sequence of `PlayTrack(k)` (any integer `k`), `TogglePlayPause`,
`NextTrack` and `PrevTrack` calls, with any load outcomes, `currentIndex` is `-1` or
satisfies `0 ≤ currentIndex < n`, where `n` is the size of the playlist. -/
theorem currentIndex_valid (ops : List Op) (base : State) (pl : List Track) :
    (reached base pl ops).currentIndex = -1 ∨
    (0 ≤ (reached base pl ops).currentIndex ∧
      (reached base pl ops).currentIndex < (pl.length : ℤ)) := by
  have h := run_IndexOk ops { base with playlist := pl, currentIndex := -1 } (Or.inl rfl)
  unfold IndexOk State.size at h
  rw [run_length] at h
  exact h

/-- C4 on a one-track playlist with `PrevTrack()` called while no track has been
selected: `(-1 - 1 + 1) % 1` is `0` under truncating `%`, so track 0 becomes current. -/
theorem currentIndex_valid_witness :
    (reached startup [startup.playlist[0]] [Op.PrevTrack envAllBad]).currentIndex = 0 ∧
    ((reached startup [startup.playlist[0]] [Op.PrevTrack envAllBad]).currentIndex = -1 ∨
      (0 ≤ (reached startup [startup.playlist[0]] [Op.PrevTrack envAllBad]).currentIndex ∧
        (reached startup [startup.playlist[0]] [Op.PrevTrack envAllBad]).currentIndex
          < (([startup.playlist[0]] : List Track).length : ℤ))) :=
  ⟨rfl, currentIndex_valid [Op.PrevTrack envAllBad] startup [startup.playlist[0]]⟩

/-! ## C5: only one track plays at a time -/

/-- C5. In every state reachable from the initial state (a playlist of tracks as
constructed at start-up, `currentIndex = -1`) by `PlayTrack`, `TogglePlayPause`,
`NextTrack` and `PrevTrack`, at most one stream is playing and a playing stream belongs
to the track at `currentIndex`; and `PlayTrack(idx)` with a valid `idx` first issues
`StopMusicStream` on the current track when that track is loaded, which leaves the
stream of the track that was current stopped (not paused) once another track is
current. -/
theorem one_track_plays (pl : List Track) (base : State) (ops : List Op) (hfresh : Fresh pl) :
    (∀ (i j : ℕ) (ti tj : Track),
      (reached base pl ops).playlist[i]? = some ti →
      (reached base pl ops).playlist[j]? = some tj →
      ti.music.stream = StreamState.playing → tj.music.stream = StreamState.playing →
      i = j ∧ (i : ℤ) = (reached base pl ops).currentIndex) ∧
    (∀ (env : Env) (idx : ℤ) (cur : ℕ) (tc : Track),
      0 ≤ idx → idx < (pl.length : ℤ) →
      (reached base pl ops).currentIndex = (cur : ℤ) →
      (reached base pl ops).playlist[cur]? = some tc →
      tc.loaded = true →
      (∃ rest,
        (PlayTrack env idx (reached base pl ops)).calls
          = (reached base pl ops).calls ++ Call.StopMusicStream cur :: rest) ∧
      ((cur : ℤ) ≠ idx →
        ∃ tc1,
          (PlayTrack env idx (reached base pl ops)).playlist[cur]? = some tc1 ∧
          tc1.music.stream = StreamState.stopped)) := by
  have hinv := run_inv ops _ (Fresh.inv base pl hfresh)
  have hlen := run_length ops { base with playlist := pl, currentIndex := -1 }
  unfold reached
  generalize run ops { base with playlist := pl, currentIndex := -1 } = s at hinv hlen ⊢
  simp only [] at hlen
  obtain ⟨_, htr⟩ := hinv
  refine ⟨fun i j ti tj hi hj hpi hpj => ?_, ?_⟩
  · have e1 := (htr _ _ hi).2 hpi
    have e2 := (htr _ _ hj).2 hpj
    exact ⟨by omega, e1⟩
  · intro env idx cur tc h0 h1 hcur hget hl
    have hcn : s.currentIndex.toNat = cur := by omega
    have hlt : cur < s.playlist.length := by
      rcases List.getElem?_eq_some.mp hget with ⟨hlt, _⟩
      exact hlt
    have hcl : s.currentLoaded = true := by
      rw [currentLoaded_iff]
      refine ⟨by omega, by unfold State.size; omega, tc, by rw [hcn]; exact hget, hl⟩
    have hstop : stopCurrent s =
        s.onMusic cur StopMusicStream (Call.StopMusicStream cur) := by
      unfold stopCurrent
      rw [if_pos hcl, hcn]
    have hstopcalls : (stopCurrent s).calls = s.calls ++ [Call.StopMusicStream cur] := by
      rw [hstop]
      unfold State.onMusic
      rw [hget]
    have hplay : PlayTrack env idx s =
        loadAndStart env { stopCurrent s with currentIndex := idx } := by
      unfold PlayTrack
      rw [if_neg (by unfold State.size; omega)]
    rw [hplay]
    refine ⟨?_, fun hne => ?_⟩
    · obtain ⟨rest, hrest⟩ := loadAndStart_calls env { stopCurrent s with currentIndex := idx }
      refine ⟨rest, ?_⟩
      rw [hrest]
      simp only []
      rw [hstopcalls]
      simp only [List.append_assoc, List.singleton_append]
    · refine ⟨{ tc with music := StopMusicStream tc.music }, ?_, ?_⟩
      · rw [loadAndStart_other _ _ _ (by simp only []; omega)]
        simp only []
        rw [hstop]
        exact onMusic_at _ _ _ _ _ hget
      · exact StopMusicStream_not_playing _ (htr _ _ hget).1.2

theorem startup_fresh : Fresh startup.playlist := by
  intro t ht
  simp only [startup, LoadPlaylistHardcoded, State.initial, List.nil_append, List.cons_append,
    List.mem_cons, List.mem_singleton, List.not_mem_nil, or_false] at ht
  rcases ht with rfl | rfl | rfl <;> exact ⟨rfl, rfl⟩

/-- C5 on the start-up playlist.  After `TogglePlayPause(); NextTrack();` with every load
succeeding track 1 is playing and it is the current track; after `TogglePlayPause()`
alone (track 0 loaded and current) `PlayTrack(1)` first stops track 0 and leaves its
stream stopped. -/
theorem one_track_plays_witness :
    Fresh startup.playlist ∧
    (((reached startup startup.playlist
        [Op.TogglePlayPause envAllGood, Op.NextTrack envAllGood]).playlist[1]?).map
          (fun t => t.music.stream) = some StreamState.playing ∧
      ((1 : ℕ) = 1 ∧ ((1 : ℕ) : ℤ) = (reached startup startup.playlist
        [Op.TogglePlayPause envAllGood, Op.NextTrack envAllGood]).currentIndex)) ∧
    (((reached startup startup.playlist [Op.TogglePlayPause envAllGood]).playlist[0]?).map
        Track.loaded = some true ∧
      (∃ rest,
        (PlayTrack envAllGood 1
          (reached startup startup.playlist [Op.TogglePlayPause envAllGood])).calls
          = (reached startup startup.playlist [Op.TogglePlayPause envAllGood]).calls
              ++ Call.StopMusicStream 0 :: rest) ∧
      ∃ tc1,
        (PlayTrack envAllGood 1
          (reached startup startup.playlist [Op.TogglePlayPause envAllGood])).playlist[0]?
            = some tc1 ∧
        tc1.music.stream = StreamState.stopped) :=
  ⟨startup_fresh,
    ⟨rfl,
      (one_track_plays startup.playlist startup
        [Op.TogglePlayPause envAllGood, Op.NextTrack envAllGood] startup_fresh).1
          1 1 _ _ rfl rfl rfl rfl⟩,
    ⟨rfl,
      ((one_track_plays startup.playlist startup [Op.TogglePlayPause envAllGood]
        startup_fresh).2 envAllGood 1 0 _ (by decide) (by decide) rfl rfl rfl).1,
      ((one_track_plays startup.playlist startup [Op.TogglePlayPause envAllGood]
        startup_fresh).2 envAllGood 1 0 _ (by decide) (by decide) rfl rfl rfl).2
          (by decide)⟩⟩

/-! ## C2: playing a track whose local audio file is missing -/

/-- C2 as stated fails on a track that is already loaded.  On the start-up playlist,
`PlayTrack(1)` while the file of track 1 exists loads the track; when the file is missing
afterwards (a local asset, `FileExists` false), `PlayTrack(1)` returns from `LoadTrack`
at `if (t.loaded) return true;` and the track is loaded, carries no error message and is
playing: the raylib calls of that second `PlayTrack(1)` are a stop, a play and a volume
call. -/
theorem missing_asset_counterexample :
    ((PlayTrack envAllGood 1 startup).playlist[1]?).map Track.file
      = some "assets/music/Sailor-Song.mp3" ∧
    startsWithAssets "assets/music/Sailor-Song.mp3" = true ∧
    envNoFiles.FileExists "assets/music/Sailor-Song.mp3" = false ∧
    ((PlayTrack envNoFiles 1 (PlayTrack envAllGood 1 startup)).playlist[1]?).map Track.loaded
      = some true ∧
    ((PlayTrack envNoFiles 1 (PlayTrack envAllGood 1 startup)).playlist[1]?).map
      Track.errorMessage = some "" ∧
    ((PlayTrack envNoFiles 1 (PlayTrack envAllGood 1 startup)).playlist[1]?).map
      (fun t => t.music.stream) = some StreamState.playing ∧
    (PlayTrack envNoFiles 1 (PlayTrack envAllGood 1 startup)).calls
      = (PlayTrack envAllGood 1 startup).calls ++
        [Call.StopMusicStream 1, Call.PlayMusicStream 1, Call.SetMusicVolume 1 (4 / 5)] :=
  ⟨rfl, by decide, rfl, rfl, rfl, rfl, rfl⟩

/-- C2, amended.  In every state reachable from start-up, for every valid index `idx`
whose track is not yet loaded and whose audio file is a missing local asset (the path
starts with `assets/` and `FileExists` is false), `PlayTrack(idx)` ends with
`currentIndex = idx`; track `idx`
is unchanged but for the non-empty error message `Local file not found: <file>`, so it is
not loaded; the only raylib calls issued are the `StopMusicStream` of the previously
current loaded track, the `FileExists` probe and two `TraceLog` messages, so no
`LoadMusicStream` and no `PlayMusicStream` takes place; and no stream is playing.  On the
start-up playlist with the file of track 1 missing, `PlayTrack(1)` leaves
`currentIndex = 1` and a following `NextTrack()` makes index 2 current and starts
track 2 when its audio loads. -/
theorem missing_asset_play (pl : List Track) (base : State) (ops : List Op)
    (hfresh : Fresh pl) (env : Env) (idx : ℤ) (t : Track)
    (h0 : 0 ≤ idx) (h1 : idx < (pl.length : ℤ))
    (ht : (reached base pl ops).playlist[idx.toNat]? = some t)
    (hl : t.loaded = false) (hp : startsWithAssets t.file = true)
    (hm : env.FileExists t.file = false) :
    ((PlayTrack env idx (reached base pl ops)).currentIndex = idx ∧
      (PlayTrack env idx (reached base pl ops)).playlist[idx.toNat]?
        = some { t with errorMessage := "Local file not found: " ++ t.file } ∧
      "Local file not found: " ++ t.file ≠ "" ∧
      (PlayTrack env idx (reached base pl ops)).calls =
        (reached base pl ops).calls
          ++ (if (reached base pl ops).currentLoaded then
                [Call.StopMusicStream (reached base pl ops).currentIndex.toNat] else [])
          ++ [Call.FileExists t.file,
              Call.TraceLog LogLevel.warning ("Local file not found: " ++ t.file),
              Call.TraceLog LogLevel.error ("Could not play track: " ++ t.title)] ∧
      (∀ (j : ℕ) (tj : Track),
        (PlayTrack env idx (reached base pl ops)).playlist[j]? = some tj →
        tj.music.stream ≠ StreamState.playing)) ∧
    (∀ env1 env2 : Env,
      env1.FileExists "assets/music/Sailor-Song.mp3" = false →
      env2.FileExists "assets/music/download.mp3" = true →
      env2.LoadMusicStream "assets/music/download.mp3" ≠ 0 →
      (PlayTrack env1 1 startup).currentIndex = 1 ∧
      (∃ t1, (PlayTrack env1 1 startup).playlist[1]? = some t1 ∧ t1.loaded = false ∧
        t1.errorMessage = "Local file not found: assets/music/Sailor-Song.mp3") ∧
      (∀ (j : ℕ) (tj : Track), (PlayTrack env1 1 startup).playlist[j]? = some tj →
        tj.music.stream ≠ StreamState.playing) ∧
      (NextTrack env2 (PlayTrack env1 1 startup)).currentIndex = 2 ∧
      ∃ t2, (NextTrack env2 (PlayTrack env1 1 startup)).playlist[2]? = some t2 ∧
        t2.loaded = true ∧ t2.music.stream = StreamState.playing) := by
  constructor
  · have hinv : Inv (reached base pl ops) := run_inv ops _ (Fresh.inv base pl hfresh)
    have hlen : (reached base pl ops).playlist.length = pl.length :=
      run_length ops { base with playlist := pl, currentIndex := -1 }
    obtain ⟨c1, c2, c3, c4⟩ := PlayTrack_missing env idx (reached base pl ops) t hinv h0
      (by unfold State.size; omega) ht hl hp hm
    exact ⟨c1, c2, notFound_ne_empty _, c3, c4⟩
  · intro env1 env2 hm1 hf2 hl2
    have hsz : startup.size = 3 := rfl
    have hc1 : (PlayTrack env1 1 startup).currentIndex = 1 :=
      PlayTrack_currentIndex env1 1 startup (by decide) (by decide)
    have hlen1 : (PlayTrack env1 1 startup).playlist.length = 3 := PlayTrack_length _ _ _
    have hne : (PlayTrack env1 1 startup).playlist.isEmpty = false := by
      cases hpl : (PlayTrack env1 1 startup).playlist with
      | nil => rw [hpl] at hlen1; exact absurd hlen1 (by decide)
      | cons a l => rfl
    have htr2 : (PlayTrack env1 1 startup).playlist[2]? = startup.playlist[2]? :=
      PlayTrack_other env1 1 startup 2 (by decide) rfl
    have hnext : NextTrack env2 (PlayTrack env1 1 startup)
        = PlayTrack env2 2 (PlayTrack env1 1 startup) := by
      unfold NextTrack
      rw [hne, hc1]
      have hs : (PlayTrack env1 1 startup).size = 3 := by
        unfold State.size
        rw [hlen1]
        rfl
      rw [hs]
      rfl
    rw [hnext]
    have hsucc := PlayTrack_success env2 2 (PlayTrack env1 1 startup) _ (by decide)
      (by unfold State.size; rw [hlen1]; decide) htr2 rfl
      (by
        show (startsWithAssets "assets/music/download.mp3" &&
          !env2.FileExists "assets/music/download.mp3") = false
        rw [hf2]
        simp) hl2
    have hinv0 : Inv startup := Fresh.inv startup startup.playlist startup_fresh
    obtain ⟨_, d2, _, d4⟩ := PlayTrack_missing env1 1 startup _ hinv0 (by decide) (by decide)
      (show startup.playlist[(1 : ℤ).toNat]? = some _ from rfl) rfl (by decide) hm1
    exact ⟨hc1, ⟨_, d2, rfl, by decide⟩, d4, hsucc.1, hsucc.2⟩

/-- C2, amended, on the start-up playlist with `idx = 1` and no file present: track 1 is
current, not loaded and carries the message; the following `NextTrack()` with every load
succeeding makes track 2 current and playing. -/
theorem missing_asset_play_witness :
    Fresh startup.playlist ∧
    ((PlayTrack envNoFiles 1 (reached startup startup.playlist [])).currentIndex = 1 ∧
      (PlayTrack envNoFiles 1 (reached startup startup.playlist [])).playlist[(1 : ℤ).toNat]?
        = some { startup.playlist[1] with
            errorMessage := "Local file not found: " ++ startup.playlist[1].file }) ∧
    ((NextTrack envAllGood (PlayTrack envNoFiles 1 startup)).currentIndex = 2 ∧
      ∃ t2, (NextTrack envAllGood (PlayTrack envNoFiles 1 startup)).playlist[2]? = some t2 ∧
        t2.loaded = true ∧ t2.music.stream = StreamState.playing) :=
  ⟨startup_fresh,
    ⟨(missing_asset_play startup.playlist startup [] startup_fresh envNoFiles 1
        startup.playlist[1] (by decide) (by decide) rfl rfl (by decide) rfl).1.1,
      (missing_asset_play startup.playlist startup [] startup_fresh envNoFiles 1
        startup.playlist[1] (by decide) (by decide) rfl rfl (by decide) rfl).1.2.1⟩,
    ((missing_asset_play startup.playlist startup [] startup_fresh envNoFiles 1
        startup.playlist[1] (by decide) (by decide) rfl rfl (by decide) rfl).2
          envNoFiles envAllGood rfl rfl (by decide)).2.2.2⟩

/-! ## C3: `LoadTrack` on a loaded track -/

/-- C3 as stated fails when the first load fails.  On the start-up playlist with audio
decoding failing, `LoadTrack(0)` returns `false` twice, track 0 is not loaded after the
second call, and the second call issues a second `LoadMusicStream`. -/
theorem LoadTrack_twice_counterexample :
    (0 : ℤ) ≤ 0 ∧ (0 : ℤ) < startup.size ∧
    (LoadTrack envAllBad 0 startup).1 = false ∧
    (LoadTrack envAllBad 0 (LoadTrack envAllBad 0 startup).2).1 = false ∧
    ((LoadTrack envAllBad 0 (LoadTrack envAllBad 0 startup).2).2.playlist[0]?).map Track.loaded
      = some false ∧
    (LoadTrack envAllBad 0 (LoadTrack envAllBad 0 startup).2).2.calls =
      (LoadTrack envAllBad 0 startup).2.calls ++
        [Call.LoadMusicStream "Assets/Music/BabyBoy.mp3",
         Call.TraceLog LogLevel.warning "Audio load failed: Assets/Music/BabyBoy.mp3"] :=
  ⟨by decide, by decide, rfl, rfl, rfl, by decide⟩

/-- C3, amended.  For every valid index at which a call of `LoadTrack` returns success, a
second call right after it (whatever the outcomes raylib would give) returns success and
leaves the whole state as it is: the playlist, so the audio and cover handles of the track,
which is loaded, and the record of raylib calls, so the second call issues no
`LoadMusicStream`, no `LoadTexture` and no other call. -/
theorem LoadTrack_idempotent (env1 env2 : Env) (idx : ℤ) (s : State)
    (h0 : 0 ≤ idx) (h1 : idx < s.size) (hok : (LoadTrack env1 idx s).1 = true) :
    LoadTrack env2 idx (LoadTrack env1 idx s).2 = (true, (LoadTrack env1 idx s).2) ∧
    (∃ t, (LoadTrack env1 idx s).2.playlist[idx.toNat]? = some t ∧ t.loaded = true ∧
      (LoadTrack env2 idx (LoadTrack env1 idx s).2).2.playlist[idx.toNat]? = some t) ∧
    (LoadTrack env2 idx (LoadTrack env1 idx s).2).2.playlist = (LoadTrack env1 idx s).2.playlist ∧
    (LoadTrack env2 idx (LoadTrack env1 idx s).2).2.calls = (LoadTrack env1 idx s).2.calls := by
  have hlt : idx.toNat < s.playlist.length := by
    unfold State.size at h1
    omega
  have hsz : idx < (LoadTrack env1 idx s).2.size := by
    unfold State.size at h1 ⊢
    rw [LoadTrack_length]
    exact h1
  have hloaded : ∃ t, (LoadTrack env1 idx s).2.playlist[idx.toNat]? = some t ∧
      t.loaded = true := by
    cases hl : s.playlist[idx.toNat].loaded with
    | true =>
      rw [LoadTrack_of_loaded env1 idx s _ h0 h1 (List.getElem?_eq_getElem hlt) hl]
      exact ⟨_, List.getElem?_eq_getElem hlt, hl⟩
    | false =>
      have hu := LoadTrack_of_unloaded env1 idx s _ h0 h1 (List.getElem?_eq_getElem hlt) hl
      rw [hu] at hok ⊢
      refine ⟨(loadTrackBody env1 s.playlist[idx.toNat]).2.1, ?_, ?_⟩
      · simp only []
        rw [List.getElem?_set, if_pos rfl, if_pos hlt]
      · rw [loadTrackBody_loaded env1 _ hl]
        exact hok
  obtain ⟨t, ht, hl⟩ := hloaded
  have h2 := LoadTrack_of_loaded env2 idx (LoadTrack env1 idx s).2 t h0 hsz ht hl
  rw [h2]
  exact ⟨rfl, ⟨t, ht, hl, ht⟩, rfl, rfl⟩

/-- C3, amended, on the start-up playlist: track 0 loads, and loading it again while
every load would fail changes nothing. -/
theorem LoadTrack_idempotent_witness :
    (LoadTrack envAllGood 0 startup).1 = true ∧
    LoadTrack envAllBad 0 (LoadTrack envAllGood 0 startup).2
      = (true, (LoadTrack envAllGood 0 startup).2) :=
  ⟨rfl, (LoadTrack_idempotent envAllGood envAllBad 0 startup (by decide) (by decide) rfl).1⟩

/-! ## Rounding to binary32 -/

theorem two_zpow_pos (n : ℤ) : (0 : ℚ) < (2 : ℚ) ^ n := zpow_pos (by norm_num) n

theorem ulpF32_pos (x : ℚ) : 0 < ulpF32 x := two_zpow_pos _

theorem roundHalfEven_floor_le (q : ℚ) : ⌊q⌋ ≤ roundHalfEven q := by
  unfold roundHalfEven
  split_ifs <;> omega

theorem roundHalfEven_le_floor_succ (q : ℚ) : roundHalfEven q ≤ ⌊q⌋ + 1 := by
  unfold roundHalfEven
  split_ifs <;> omega

theorem roundHalfEven_intCast (z : ℤ) : roundHalfEven (z : ℚ) = z := by
  unfold roundHalfEven
  rw [Int.floor_intCast, sub_self, if_pos (by norm_num)]

theorem le_roundHalfEven (z : ℤ) (q : ℚ) (h : (z : ℚ) ≤ q) : z ≤ roundHalfEven q :=
  le_trans (Int.le_floor.mpr h) (roundHalfEven_floor_le q)

theorem roundHalfEven_le (z : ℤ) (q : ℚ) (h : q ≤ (z : ℚ)) : roundHalfEven q ≤ z := by
  rcases eq_or_lt_of_le h with e | hlt
  · rw [e, roundHalfEven_intCast]
  · have h1 : ⌊q⌋ < z := Int.floor_lt.mpr hlt
    have h2 := roundHalfEven_le_floor_succ q
    omega

theorem expF32_ge (x : ℚ) : -126 ≤ expF32 x := le_max_right _ _

theorem log_le_expF32 (x : ℚ) : Int.log 2 |x| ≤ expF32 x := le_max_left _ _

theorem expF32_mono (a b : ℚ) (ha : a ≠ 0) (h : |a| ≤ |b|) : expF32 a ≤ expF32 b := by
  unfold expF32
  exact max_le_max (Int.log_mono_right (abs_pos.mpr ha) h) (le_refl _)

theorem abs_lt_two_zpow (a : ℚ) (n : ℤ) (h : expF32 a < n) : |a| < (2 : ℚ) ^ n := by
  by_cases ha : a = 0
  · rw [ha, abs_zero]
    exact two_zpow_pos n
  · have h1 : Int.log 2 |a| < n := lt_of_le_of_lt (log_le_expF32 a) h
    have h2 := (Int.lt_zpow_iff_log_lt (R := ℚ) (b := 2) (by norm_num) (abs_pos.mpr ha)).mpr h1
    simpa using h2

theorem two_zpow_le_abs (x : ℚ) (hx : x ≠ 0) (h : -126 < expF32 x) :
    (2 : ℚ) ^ expF32 x ≤ |x| := by
  have he : expF32 x = Int.log 2 |x| := by
    unfold expF32 at h ⊢
    rcases le_total (Int.log 2 |x|) (-126) with h1 | h1
    · rw [max_eq_right h1] at h
      omega
    · exact max_eq_left h1
  rw [he]
  have h2 := Int.zpow_log_le_self (R := ℚ) (b := 2) (by norm_num) (abs_pos.mpr hx)
  simpa using h2

theorem expF32_eq (x : ℚ) (e : ℤ) (he : -126 ≤ e) (h1 : (2 : ℚ) ^ e ≤ |x|)
    (h2 : |x| < (2 : ℚ) ^ (e + 1)) : expF32 x = e := by
  have hpos : 0 < |x| := lt_of_lt_of_le (two_zpow_pos e) h1
  have a1 : e ≤ Int.log 2 |x| :=
    (Int.zpow_le_iff_le_log (R := ℚ) (b := 2) (by norm_num) hpos).mp (by simpa using h1)
  have a2 : Int.log 2 |x| < e + 1 :=
    (Int.lt_zpow_iff_log_lt (R := ℚ) (b := 2) (by norm_num) hpos).mp (by simpa using h2)
  unfold expF32
  rw [max_eq_left (by omega)]
  omega

theorem two_zpow_eq_intCast (n : ℤ) (h : 0 ≤ n) :
    (2 : ℚ) ^ n = (((2 : ℤ) ^ n.toNat : ℤ) : ℚ) := by
  obtain ⟨k, rfl⟩ := Int.eq_ofNat_of_zero_le h
  simp

theorem roundF32_zero : roundF32 0 = 0 := by
  unfold roundF32
  rw [zero_div]
  have h : roundHalfEven 0 = 0 := by
    have := roundHalfEven_intCast 0
    simpa using this
  rw [h]
  simp

/-- A value that rounding leaves alone is an integer multiple of every spacing that is
not larger than its own. -/
theorem div_ulp_eq_intCast (a x : ℚ) (ha : roundF32 a = a) (h : expF32 x ≤ expF32 a) :
    ∃ z : ℤ, a / ulpF32 x = (z : ℚ) := by
  obtain ⟨k, hk⟩ : ∃ k : ℤ, (k : ℚ) * ulpF32 a = a := ⟨_, ha⟩
  refine ⟨k * (2 : ℤ) ^ (expF32 a - expF32 x).toNat, ?_⟩
  have hd : (2 : ℚ) ^ (expF32 a - expF32 x) =
      (((2 : ℤ) ^ (expF32 a - expF32 x).toNat : ℤ) : ℚ) :=
    two_zpow_eq_intCast _ (by omega)
  have hu : ulpF32 a = (2 : ℚ) ^ (expF32 a - expF32 x) * ulpF32 x := by
    unfold ulpF32
    rw [← zpow_add₀ (by norm_num : (2 : ℚ) ≠ 0)]
    congr 1
    ring
  have hux : ulpF32 x ≠ 0 := ne_of_gt (ulpF32_pos x)
  rw [Int.cast_mul, ← hd]
  calc a / ulpF32 x = (k : ℚ) * ulpF32 a / ulpF32 x := by rw [hk]
    _ = (k : ℚ) * ((2 : ℚ) ^ (expF32 a - expF32 x) * ulpF32 x) / ulpF32 x := by rw [hu]
    _ = (k : ℚ) * (2 : ℚ) ^ (expF32 a - expF32 x) := by
      field_simp
      ring

theorem le_roundF32_of_div_int (a x : ℚ) (z : ℤ) (hz : a / ulpF32 x = (z : ℚ)) (h : a ≤ x) :
    a ≤ roundF32 x := by
  have hu := ulpF32_pos x
  have h1 : (z : ℚ) ≤ x / ulpF32 x := by
    rw [← hz]
    exact div_le_div_of_nonneg_right h hu.le
  have h2 : ((z : ℤ) : ℚ) ≤ (roundHalfEven (x / ulpF32 x) : ℚ) := by
    exact_mod_cast le_roundHalfEven z _ h1
  have h3 : a = (z : ℚ) * ulpF32 x := by
    rw [← hz]
    field_simp
  rw [h3]
  unfold roundF32
  exact mul_le_mul_of_nonneg_right h2 hu.le

theorem roundF32_le_of_div_int (a x : ℚ) (z : ℤ) (hz : a / ulpF32 x = (z : ℚ)) (h : x ≤ a) :
    roundF32 x ≤ a := by
  have hu := ulpF32_pos x
  have h1 : x / ulpF32 x ≤ (z : ℚ) := by
    rw [← hz]
    exact div_le_div_of_nonneg_right h hu.le
  have h2 : (roundHalfEven (x / ulpF32 x) : ℚ) ≤ ((z : ℤ) : ℚ) := by
    exact_mod_cast roundHalfEven_le z _ h1
  have h3 : a = (z : ℚ) * ulpF32 x := by
    rw [← hz]
    field_simp
  rw [h3]
  unfold roundF32
  exact mul_le_mul_of_nonneg_right h2 hu.le

theorem two_zpow_div_ulp (x : ℚ) : (2 : ℚ) ^ expF32 x / ulpF32 x = (((2 : ℤ) ^ 23 : ℤ) : ℚ) := by
  unfold ulpF32
  rw [← zpow_sub₀ (by norm_num : (2 : ℚ) ≠ 0)]
  have : expF32 x - (expF32 x - 23) = 23 := by ring
  rw [this]
  norm_num

/-- Rounding does not go below a binary32 value that the argument is not below. -/
theorem le_roundF32 (a x : ℚ) (ha : roundF32 a = a) (h : a ≤ x) : a ≤ roundF32 x := by
  by_cases hx0 : x = 0
  · rw [hx0, roundF32_zero]
    rw [hx0] at h
    exact h
  by_cases he : expF32 x ≤ expF32 a
  · obtain ⟨z, hz⟩ := div_ulp_eq_intCast a x ha he
    exact le_roundF32_of_div_int a x z hz h
  · have he2 : expF32 a < expF32 x := by omega
    have hlt : |a| < (2 : ℚ) ^ expF32 x := abs_lt_two_zpow a _ he2
    have hge : (2 : ℚ) ^ expF32 x ≤ |x| :=
      two_zpow_le_abs x hx0 (lt_of_le_of_lt (expF32_ge a) he2)
    rcases lt_or_gt_of_ne hx0 with hneg | hpos
    · exfalso
      have ha0 : a ≠ 0 := by
        intro e
        rw [e] at h
        linarith
      have habs : |x| ≤ |a| := by
        rw [abs_of_neg hneg, abs_of_neg (by linarith)]
        linarith
      have := expF32_mono x a hx0 habs
      omega
    · rw [abs_of_pos hpos] at hge
      have hp : (2 : ℚ) ^ expF32 x ≤ roundF32 x :=
        le_roundF32_of_div_int _ x _ (two_zpow_div_ulp x) hge
      have : a ≤ |a| := le_abs_self a
      linarith

/-- Rounding does not go above a binary32 value that the argument is not above. -/
theorem roundF32_le (a x : ℚ) (ha : roundF32 a = a) (h : x ≤ a) : roundF32 x ≤ a := by
  by_cases hx0 : x = 0
  · rw [hx0, roundF32_zero]
    rw [hx0] at h
    exact h
  by_cases he : expF32 x ≤ expF32 a
  · obtain ⟨z, hz⟩ := div_ulp_eq_intCast a x ha he
    exact roundF32_le_of_div_int a x z hz h
  · have he2 : expF32 a < expF32 x := by omega
    have hlt : |a| < (2 : ℚ) ^ expF32 x := abs_lt_two_zpow a _ he2
    have hge : (2 : ℚ) ^ expF32 x ≤ |x| :=
      two_zpow_le_abs x hx0 (lt_of_le_of_lt (expF32_ge a) he2)
    rcases lt_or_gt_of_ne hx0 with hneg | hpos
    · rw [abs_of_neg hneg] at hge
      have hdiv : -(2 : ℚ) ^ expF32 x / ulpF32 x = ((-(2 : ℤ) ^ 23 : ℤ) : ℚ) := by
        rw [neg_div, two_zpow_div_ulp, Int.cast_neg]
      have hp : roundF32 x ≤ -(2 : ℚ) ^ expF32 x :=
        roundF32_le_of_div_int _ x _ hdiv (by linarith)
      have : -|a| ≤ a := neg_abs_le a
      linarith
    · exfalso
      have ha0 : a ≠ 0 := by
        intro e
        rw [e] at h
        linarith
      have habs : |x| ≤ |a| := by
        rw [abs_of_pos hpos, abs_of_pos (by linarith)]
        exact h
      have := expF32_mono x a hx0 habs
      omega

theorem roundF32_eval (x : ℚ) (e n : ℤ) (he : -126 ≤ e) (h1 : (2 : ℚ) ^ e ≤ |x|)
    (h2 : |x| < (2 : ℚ) ^ (e + 1)) (hn : roundHalfEven (x / (2 : ℚ) ^ (e - 23)) = n) :
    roundF32 x = (n : ℚ) * (2 : ℚ) ^ (e - 23) := by
  unfold roundF32 ulpF32
  rw [expF32_eq x e he h1 h2, hn]

theorem roundF32_two_zpow (k : ℤ) (hk : -126 ≤ k) : roundF32 ((2 : ℚ) ^ k) = (2 : ℚ) ^ k := by
  have hp := two_zpow_pos k
  have h2 : |(2 : ℚ) ^ k| < (2 : ℚ) ^ (k + 1) := by
    rw [abs_of_pos hp, zpow_add_one₀ (by norm_num : (2 : ℚ) ≠ 0)]
    linarith
  have hq : (2 : ℚ) ^ k / (2 : ℚ) ^ (k - 23) = (((2 : ℤ) ^ 23 : ℤ) : ℚ) := by
    rw [← zpow_sub₀ (by norm_num : (2 : ℚ) ≠ 0)]
    have : k - (k - 23) = 23 := by ring
    rw [this]
    norm_num
  rw [roundF32_eval _ k ((2 : ℤ) ^ 23) hk (by rw [abs_of_pos hp]) h2
    (by rw [hq, roundHalfEven_intCast])]
  rw [← hq]
  field_simp

theorem roundHalfEven_down (q : ℚ) (f : ℤ) (h1 : (f : ℚ) ≤ q) (h2 : q - f < 1 / 2) :
    roundHalfEven q = f := by
  have hf : ⌊q⌋ = f := Int.floor_eq_iff.mpr ⟨h1, by linarith⟩
  unfold roundHalfEven
  rw [hf, if_pos h2]

theorem roundHalfEven_tie_odd (q : ℚ) (f : ℤ) (h : q - f = 1 / 2) (hodd : f % 2 = 1) :
    roundHalfEven q = f + 1 := by
  have hf : ⌊q⌋ = f := Int.floor_eq_iff.mpr ⟨by linarith, by linarith⟩
  unfold roundHalfEven
  rw [hf, if_neg (by linarith), if_neg (by linarith), if_neg (by omega)]

theorem roundF32_one : roundF32 1 = 1 := by
  have h := roundF32_two_zpow 0 (by norm_num)
  simpa using h

theorem roundF32_of_int (x : ℚ) (e m : ℤ) (he : -126 ≤ e) (h1 : (2 : ℚ) ^ e ≤ |x|)
    (h2 : |x| < (2 : ℚ) ^ (e + 1)) (hm : x / (2 : ℚ) ^ (e - 23) = (m : ℚ)) :
    roundF32 x = x := by
  rw [roundF32_eval x e m he h1 h2 (by rw [hm, roundHalfEven_intCast]), ← hm]
  have := two_zpow_pos (e - 23)
  field_simp

theorem roundF32_two_pow_neg25 : roundF32 (1 / 33554432) = 1 / 33554432 :=
  roundF32_of_int _ (-25) 8388608 (by norm_num) (by norm_num [abs_of_pos])
    (by norm_num [abs_of_pos]) (by norm_num)

/-- The tie `1 - 2^-25` between `1 - 2^-24` and `1` goes to the even neighbour `1`. -/
theorem roundF32_below_one_tie : roundF32 (1 - 1 / 33554432) = 1 := by
  rw [roundF32_eval _ (-1) 16777216 (by norm_num) (by norm_num [abs_of_pos])
    (by norm_num [abs_of_pos])
    (by
      rw [roundHalfEven_tie_odd ((1 - 1 / 33554432) / (2 : ℚ) ^ ((-1 : ℤ) - 23)) 16777215
        (by norm_num) (by norm_num)]
      norm_num)]
  norm_num

/-- The binary32 value of the literal `0.9f`. -/
theorem roundF32_nine_tenths : roundF32 (9 / 10) = 15099494 / 16777216 := by
  rw [roundF32_eval _ (-1) 15099494 (by norm_num) (by norm_num [abs_of_pos])
    (by norm_num [abs_of_pos])
    (roundHalfEven_down _ 15099494 (by norm_num) (by norm_num))]
  norm_num

/-- The binary32 value of the literal `1.8f`. -/
theorem roundF32_nine_fifths : roundF32 (9 / 5) = 15099494 / 8388608 := by
  rw [roundF32_eval _ 0 15099494 (by norm_num) (by norm_num [abs_of_pos])
    (by norm_num [abs_of_pos])
    (roundHalfEven_down _ 15099494 (by norm_num) (by norm_num))]
  norm_num

theorem roundF32_point9f : roundF32 (15099494 / 16777216) = 15099494 / 16777216 :=
  roundF32_of_int _ (-1) 15099494 (by norm_num) (by norm_num [abs_of_pos])
    (by norm_num [abs_of_pos]) (by norm_num)

theorem isF32_zero : isF32 0 := ⟨roundF32_zero, by norm_num [maxF32]⟩

theorem isF32_one : isF32 1 := ⟨roundF32_one, by norm_num [maxF32]⟩

/-! ## C8: `FadeValue` approaches its target without overshoot -/

/-- C8 as stated fails in binary32.  With `from = 1`, `to = 0` and `speed = 2^-25` (all
three binary32 values, `0 ≤ speed < |from - to|`) the difference `1 - 2^-25` is a tie that
rounds to `1`, so `FadeValue` returns `1`, which is `from` and not `from - speed`. -/
theorem FadeValue_exact_counterexample :
    isF32 1 ∧ isF32 0 ∧ isF32 (1 / 33554432) ∧
    (0 : ℚ) ≤ 1 / 33554432 ∧ (1 / 33554432 : ℚ) < |1 - 0| ∧
    FadeValue 1 0 (1 / 33554432) = 1 ∧
    FadeValue 1 0 (1 / 33554432) ≠ 1 - 1 / 33554432 := by
  have hv : FadeValue 1 0 (1 / 33554432) = 1 := by
    unfold FadeValue
    rw [if_neg (by norm_num), if_pos (by norm_num)]
    simp only []
    rw [roundF32_below_one_tie, if_neg (by norm_num)]
  refine ⟨isF32_one, isF32_zero, ⟨roundF32_two_pow_neg25, by rw [abs_of_pos (by norm_num)]; norm_num [maxF32]⟩,
    by norm_num, by norm_num, hv, ?_⟩
  rw [hv]
  norm_num

/-- C8, amended.  For all binary32 values `from` and `to` and every `speed ≥ 0`,
`FadeValue(from, to, speed)` lies between `from` and `to` inclusive, equals `to` whenever
`speed ≥ |from - to|`, and otherwise equals the binary32 sum `from + speed` (when
`from < to`) or the binary32 difference `from - speed` (when `from > to`), that is `from`
moved by `speed` toward `to` and rounded; decaying toward `0` from a non-negative value
never gives a negative value; and `FadeValue(0.9f, 0, 0.5f * 1.8f) = 0`. -/
theorem FadeValue_no_overshoot (from_ to_ speed : ℚ) (hf : isF32 from_) (ht : isF32 to_)
    (hs : 0 ≤ speed) :
    (min from_ to_ ≤ FadeValue from_ to_ speed ∧ FadeValue from_ to_ speed ≤ max from_ to_) ∧
    (|from_ - to_| ≤ speed → FadeValue from_ to_ speed = to_) ∧
    (speed < |from_ - to_| →
      FadeValue from_ to_ speed =
        if from_ < to_ then roundF32 (from_ + speed) else roundF32 (from_ - speed)) ∧
    (0 ≤ from_ → 0 ≤ FadeValue from_ 0 speed) ∧
    FadeValue (roundF32 (9 / 10)) 0 (roundF32 (1 / 2 * roundF32 (9 / 5))) = 0 := by
  have hup : from_ ≤ roundF32 (from_ + speed) := le_roundF32 _ _ hf.1 (by linarith)
  have hdown : roundF32 (from_ - speed) ≤ from_ := roundF32_le _ _ hf.1 (by linarith)
  refine ⟨?_, ?_, ?_, ?_, ?_⟩
  · unfold FadeValue
    simp only []
    rcases lt_trichotomy from_ to_ with h | h | h
    · rw [if_pos h, min_eq_left h.le, max_eq_right h.le]
      split
      · exact ⟨h.le, le_refl _⟩
      · next h2 => exact ⟨hup, not_lt.mp h2⟩
    · rw [if_neg (by linarith), if_neg (by linarith), h]
      simp
    · rw [if_neg (by linarith), if_pos h, min_eq_right h.le, max_eq_left h.le]
      split
      · exact ⟨le_refl _, h.le⟩
      · next h2 => exact ⟨not_lt.mp h2, hdown⟩
  · intro habs
    unfold FadeValue
    simp only []
    rcases lt_trichotomy from_ to_ with h | h | h
    · rw [if_pos h]
      rw [abs_of_neg (by linarith)] at habs
      have hge : to_ ≤ roundF32 (from_ + speed) := le_roundF32 _ _ ht.1 (by linarith)
      split
      · rfl
      · next h2 => exact le_antisymm (not_lt.mp h2) hge
    · rw [if_neg (by linarith), if_neg (by linarith), h]
    · rw [if_neg (by linarith), if_pos h]
      rw [abs_of_pos (by linarith)] at habs
      have hle : roundF32 (from_ - speed) ≤ to_ := roundF32_le _ _ ht.1 (by linarith)
      split
      · rfl
      · next h2 => exact le_antisymm hle (not_lt.mp h2)
  · intro habs
    unfold FadeValue
    simp only []
    rcases lt_trichotomy from_ to_ with h | h | h
    · rw [if_pos h, if_pos h]
      rw [abs_of_neg (by linarith)] at habs
      have hle : roundF32 (from_ + speed) ≤ to_ := roundF32_le _ _ ht.1 (by linarith)
      rw [if_neg (not_lt.mpr hle)]
    · rw [h, sub_self, abs_zero] at habs
      linarith
    · rw [abs_of_pos (by linarith)] at habs
      have hge : to_ ≤ roundF32 (from_ - speed) := le_roundF32 _ _ ht.1 (by linarith)
      rw [if_neg (by linarith), if_pos h, if_neg (not_lt.mpr hge), if_neg (by linarith)]
  · intro hf0
    unfold FadeValue
    simp only []
    rcases lt_trichotomy from_ 0 with h | h | h
    · linarith
    · rw [if_neg (by linarith), if_neg (by linarith)]
      exact hf0
    · rw [if_neg (by linarith), if_pos h]
      split
      · exact le_refl _
      · next h2 => exact not_lt.mp h2
  · rw [roundF32_nine_tenths, roundF32_nine_fifths]
    have e : (1 / 2 : ℚ) * (15099494 / 8388608) = 15099494 / 16777216 := by norm_num
    rw [e, roundF32_point9f]
    unfold FadeValue
    rw [if_neg (by norm_num), if_pos (by norm_num)]
    simp only []
    rw [sub_self, roundF32_zero, if_neg (lt_irrefl _)]

/-- C8, amended, on `from = 1`, `to = 0`, `speed = 2^-25`: the result stays between `0`
and `1` and is the binary32 difference. -/
theorem FadeValue_no_overshoot_witness :
    (isF32 1 ∧ isF32 0 ∧ (0 : ℚ) ≤ 1 / 33554432) ∧
    (min 1 0 ≤ FadeValue 1 0 (1 / 33554432) ∧ FadeValue 1 0 (1 / 33554432) ≤ max 1 0) :=
  ⟨⟨isF32_one, isF32_zero, by norm_num⟩,
    (FadeValue_no_overshoot 1 0 (1 / 33554432) isF32_one isF32_zero (by norm_num)).1⟩

/-! ## C9: `easeOutCubic` -/

theorem floatToInt_natCast (n : ℕ) : floatToInt (n : ℚ) = (n : ℤ) := by
  unfold floatToInt
  rw [if_pos (Nat.cast_nonneg n)]
  exact Int.floor_natCast n

theorem lerpChannel_of_trunc (c1 c2 : ℕ) (t : ℚ) (k : ℕ)
    (hk : floatToInt (Lerp (c1 : ℚ) (c2 : ℚ) t) = (k : ℤ)) (h255 : k ≤ 255) :
    lerpChannel c1 c2 t = k := by
  unfold lerpChannel
  rw [hk]
  have hq : (((k : ℤ) : ℚ)) = (k : ℚ) := Int.cast_natCast k
  rw [hq]
  have hc : Clamp (k : ℚ) 0 255 = (k : ℚ) := by
    have e1 : ¬ ((k : ℚ) < 0) := not_lt.mpr (Nat.cast_nonneg k)
    have e2 : ¬ ((k : ℚ) > 255) := not_lt.mpr (by exact_mod_cast h255)
    simp only [Clamp, if_neg e1, if_neg e2]
  rw [hc]
  unfold floatToUChar
  rw [floatToInt_natCast, Int.toNat_natCast]
  exact Nat.mod_eq_of_lt (by omega)

theorem lerpChannel_zero (c1 c2 : ℕ) (h : c1 ≤ 255) : lerpChannel c1 c2 0 = c1 := by
  apply lerpChannel_of_trunc _ _ _ _ _ h
  unfold Lerp
  rw [zero_mul, add_zero]
  exact floatToInt_natCast c1

theorem lerpChannel_one (c1 c2 : ℕ) (h : c2 ≤ 255) : lerpChannel c1 c2 1 = c2 := by
  apply lerpChannel_of_trunc _ _ _ _ _ h
  unfold Lerp
  rw [one_mul, add_sub_cancel]
  exact floatToInt_natCast c2

theorem lerpChannel_between (c1 c2 : ℕ) (t : ℚ) (h1 : c1 ≤ 255) (h2 : c2 ≤ 255)
    (ht0 : 0 ≤ t) (ht1 : t ≤ 1) :
    lerpChannel c1 c2 t ≤ 255 ∧ min c1 c2 ≤ lerpChannel c1 c2 t ∧
      lerpChannel c1 c2 t ≤ max c1 c2 := by
  have hlow : ((min c1 c2 : ℕ) : ℚ) ≤ Lerp (c1 : ℚ) (c2 : ℚ) t := by
    unfold Lerp
    rcases le_total c1 c2 with h | h
    · rw [min_eq_left h]
      have : (c1 : ℚ) ≤ (c2 : ℚ) := by exact_mod_cast h
      nlinarith
    · rw [min_eq_right h]
      have : (c2 : ℚ) ≤ (c1 : ℚ) := by exact_mod_cast h
      nlinarith
  have hhigh : Lerp (c1 : ℚ) (c2 : ℚ) t ≤ ((max c1 c2 : ℕ) : ℚ) := by
    unfold Lerp
    rcases le_total c1 c2 with h | h
    · rw [max_eq_right h]
      have : (c1 : ℚ) ≤ (c2 : ℚ) := by exact_mod_cast h
      nlinarith
    · rw [max_eq_left h]
      have : (c2 : ℚ) ≤ (c1 : ℚ) := by exact_mod_cast h
      nlinarith
  have hnn : (0 : ℚ) ≤ Lerp (c1 : ℚ) (c2 : ℚ) t := le_trans (Nat.cast_nonneg _) hlow
  have hfl : floatToInt (Lerp (c1 : ℚ) (c2 : ℚ) t) = ⌊Lerp (c1 : ℚ) (c2 : ℚ) t⌋ := by
    unfold floatToInt
    rw [if_pos hnn]
  have hge : ((min c1 c2 : ℕ) : ℤ) ≤ ⌊Lerp (c1 : ℚ) (c2 : ℚ) t⌋ := by
    rw [Int.le_floor]
    exact_mod_cast hlow
  have hle : ⌊Lerp (c1 : ℚ) (c2 : ℚ) t⌋ ≤ ((max c1 c2 : ℕ) : ℤ) := by
    have h3 : ((⌊Lerp (c1 : ℚ) (c2 : ℚ) t⌋ : ℤ) : ℚ) ≤ (((max c1 c2 : ℕ) : ℤ) : ℚ) :=
      le_trans (Int.floor_le _) (by exact_mod_cast hhigh)
    exact_mod_cast h3
  have hk0 : (0 : ℤ) ≤ ⌊Lerp (c1 : ℚ) (c2 : ℚ) t⌋ := le_trans (Int.natCast_nonneg _) hge
  obtain ⟨k, hk⟩ := Int.eq_ofNat_of_zero_le hk0
  rw [hk] at hge hle
  have hge1 : min c1 c2 ≤ k := by exact_mod_cast hge
  have hle1 : k ≤ max c1 c2 := by exact_mod_cast hle
  have hmax : max c1 c2 ≤ 255 := max_le h1 h2
  rw [lerpChannel_of_trunc c1 c2 t k (by rw [hfl, hk]) (by omega)]
  exact ⟨by omega, hge1, hle1⟩

/-- C10. For all colours `c1`, `c2` with channels in `0..255`:
`CustomColorLerp(c1, c2, 0) = c1` and `CustomColorLerp(c1, c2, 1) = c2` on every channel,
alpha included, and for every weight `t` in `[0, 1]` each channel of the result is in
`0..255` and lies between the corresponding channels of `c1` and `c2` inclusive. -/
theorem CustomColorLerp_spec (c1 c2 : Color) (h1 : c1.valid) (h2 : c2.valid) :
    CustomColorLerp c1 c2 0 = c1 ∧ CustomColorLerp c1 c2 1 = c2 ∧
    ∀ t : ℚ, 0 ≤ t → t ≤ 1 →
      (CustomColorLerp c1 c2 t).valid ∧
      (min c1.r c2.r ≤ (CustomColorLerp c1 c2 t).r ∧
        (CustomColorLerp c1 c2 t).r ≤ max c1.r c2.r) ∧
      (min c1.g c2.g ≤ (CustomColorLerp c1 c2 t).g ∧
        (CustomColorLerp c1 c2 t).g ≤ max c1.g c2.g) ∧
      (min c1.b c2.b ≤ (CustomColorLerp c1 c2 t).b ∧
        (CustomColorLerp c1 c2 t).b ≤ max c1.b c2.b) ∧
      (min c1.a c2.a ≤ (CustomColorLerp c1 c2 t).a ∧
        (CustomColorLerp c1 c2 t).a ≤ max c1.a c2.a) := by
  obtain ⟨r1, g1, b1, a1⟩ := h1
  obtain ⟨r2, g2, b2, a2⟩ := h2
  refine ⟨?_, ?_, ?_⟩
  · unfold CustomColorLerp
    rw [lerpChannel_zero _ _ r1, lerpChannel_zero _ _ g1, lerpChannel_zero _ _ b1,
      lerpChannel_zero _ _ a1]
  · unfold CustomColorLerp
    rw [lerpChannel_one _ _ r2, lerpChannel_one _ _ g2, lerpChannel_one _ _ b2,
      lerpChannel_one _ _ a2]
  · intro t ht0 ht1
    have hr := lerpChannel_between c1.r c2.r t r1 r2 ht0 ht1
    have hg := lerpChannel_between c1.g c2.g t g1 g2 ht0 ht1
    have hb := lerpChannel_between c1.b c2.b t b1 b2 ht0 ht1
    have ha := lerpChannel_between c1.a c2.a t a1 a2 ht0 ht1
    exact ⟨⟨hr.1, hg.1, hb.1, ha.1⟩, hr.2, hg.2, hb.2, ha.2⟩

/-- C10 for the colours `panel` and `neon` of `main`, at the weights `0`, `1` and
`0.06`. -/
theorem CustomColorLerp_spec_witness :
    (Color.valid ⟨18, 20, 26, 220⟩ ∧ Color.valid ⟨30, 215, 96, 255⟩) ∧
    CustomColorLerp ⟨18, 20, 26, 220⟩ ⟨30, 215, 96, 255⟩ 0 = ⟨18, 20, 26, 220⟩ ∧
    CustomColorLerp ⟨18, 20, 26, 220⟩ ⟨30, 215, 96, 255⟩ 1 = ⟨30, 215, 96, 255⟩ ∧
    (CustomColorLerp ⟨18, 20, 26, 220⟩ ⟨30, 215, 96, 255⟩ (3 / 50)).valid :=
  ⟨⟨by decide, by decide⟩,
    (CustomColorLerp_spec ⟨18, 20, 26, 220⟩ ⟨30, 215, 96, 255⟩ (by decide) (by decide)).1,
    (CustomColorLerp_spec ⟨18, 20, 26, 220⟩ ⟨30, 215, 96, 255⟩ (by decide) (by decide)).2.1,
    ((CustomColorLerp_spec ⟨18, 20, 26, 220⟩ ⟨30, 215, 96, 255⟩ (by decide) (by decide)).2.2
      (3 / 50) (by norm_num) (by norm_num)).1⟩

theorem SameSession.refl (s : State) : SameSession s s :=
  ⟨rfl, rfl, rfl, fun _ => rfl⟩

theorem SameSession.trans {s s1 s2 : State} (h1 : SameSession s s1) (h2 : SameSession s1 s2) :
    SameSession s s2 :=
  ⟨h2.1.trans h1.1, h2.2.1.trans h1.2.1, h2.2.2.1.trans h1.2.2.1,
    fun j => (h2.2.2.2 j).trans (h1.2.2.2 j)⟩

theorem set_descriptor (l : List Track) (i : ℕ) (t0 t1 : Track) (h : l[i]? = some t0)
    (hd : t1.descriptor = t0.descriptor) (j : ℕ) :
    ((l.set i t1)[j]?).map Track.descriptor = (l[j]?).map Track.descriptor := by
  have hlt : i < l.length := by
    rcases List.getElem?_eq_some.mp h with ⟨hlt, _⟩
    exact hlt
  rw [List.getElem?_set]
  by_cases hij : i = j
  · rw [if_pos hij, if_pos hlt, ← hij, h]
    simp only [Option.map_some', hd]
  · rw [if_neg hij]

theorem onMusic_same (s : State) (i : ℕ) (f : Music → Music) (c : Call) :
    SameSession s (s.onMusic i f c) := by
  unfold State.onMusic
  split
  · exact SameSession.refl s
  · next t0 ht0 => exact ⟨rfl, rfl, rfl, set_descriptor _ _ t0 _ ht0 rfl⟩

theorem loadTrackBody_descriptor (env : Env) (t : Track) :
    (loadTrackBody env t).2.1.descriptor = t.descriptor := by
  unfold loadTrackBody Track.descriptor
  simp only []
  split_ifs <;> rfl

theorem LoadTrack_same (env : Env) (idx : ℤ) (s : State) :
    SameSession s (LoadTrack env idx s).2 := by
  unfold LoadTrack
  split
  · exact SameSession.refl s
  · split
    · exact SameSession.refl s
    · next t0 ht0 =>
      split
      · exact SameSession.refl s
      · exact ⟨rfl, rfl, rfl, set_descriptor _ _ t0 _ ht0 (loadTrackBody_descriptor env t0)⟩

theorem stopCurrent_same (s : State) : SameSession s (stopCurrent s) := by
  unfold stopCurrent
  split
  · exact onMusic_same _ _ _ _
  · exact SameSession.refl s

theorem loadAndStart_same (env : Env) (s : State) : SameSession s (loadAndStart env s) := by
  have h1 := LoadTrack_same env s.currentIndex s
  unfold loadAndStart
  simp only []
  split
  · exact SameSession.trans h1 (onMusic_same _ _ _ _)
  · split
    · exact h1
    · exact h1

theorem PlayTrack_same (env : Env) (idx : ℤ) (s : State) :
    SameSession s (PlayTrack env idx s) := by
  unfold PlayTrack
  split
  · exact SameSession.refl s
  · have h1 : SameSession s { stopCurrent s with currentIndex := idx } := stopCurrent_same s
    exact SameSession.trans h1 (loadAndStart_same env _)

theorem TogglePlayPause_same (env : Env) (s : State) :
    SameSession s (TogglePlayPause env s) := by
  unfold TogglePlayPause
  split
  · split
    · exact PlayTrack_same env 0 s
    · exact SameSession.refl s
  · split
    · exact SameSession.refl s
    · split
      · exact onMusic_same s _ _ _
      · exact onMusic_same s _ _ _

theorem NextTrack_same (env : Env) (s : State) : SameSession s (NextTrack env s) := by
  unfold NextTrack
  split
  · exact PlayTrack_same _ _ s
  · exact SameSession.refl s

theorem PrevTrack_same (env : Env) (s : State) : SameSession s (PrevTrack env s) := by
  unfold PrevTrack
  split
  · exact PlayTrack_same _ _ s
  · exact SameSession.refl s

/-! ## C7: authority over `seekPos` while dragging -/

theorem pressPlaylistButtons_same (inp : FrameInput) (s : State) :
    (pressPlaylistButtons inp s).seekPos = s.seekPos ∧
    (pressPlaylistButtons inp s).draggingSeek = s.draggingSeek := by
  unfold pressPlaylistButtons
  simp only []
  split_ifs <;> exact ⟨rfl, rfl⟩

theorem pressPrev_same (inp : FrameInput) (s : State) :
    (pressPrev inp s).seekPos = s.seekPos ∧
    (pressPrev inp s).draggingSeek = s.draggingSeek := by
  unfold pressPrev
  split
  · exact ⟨(PrevTrack_same inp.env s).1, (PrevTrack_same inp.env s).2.1⟩
  · exact ⟨rfl, rfl⟩

theorem pressPlay_same (inp : FrameInput) (s : State) :
    (pressPlay inp s).seekPos = s.seekPos ∧
    (pressPlay inp s).draggingSeek = s.draggingSeek := by
  unfold pressPlay
  split
  · exact ⟨(TogglePlayPause_same inp.env s).1, (TogglePlayPause_same inp.env s).2.1⟩
  · exact ⟨rfl, rfl⟩

theorem pressNext_same (inp : FrameInput) (s : State) :
    (pressNext inp s).seekPos = s.seekPos ∧
    (pressNext inp s).draggingSeek = s.draggingSeek := by
  unfold pressNext
  split
  · exact ⟨(NextTrack_same inp.env s).1, (NextTrack_same inp.env s).2.1⟩
  · exact ⟨rfl, rfl⟩

theorem handlePress_seekPos (inp : FrameInput) (s : State) :
    (handlePress inp s).seekPos = s.seekPos := by
  unfold handlePress
  split
  · have h4 : ∀ u : State, (pressSeekBar inp u).seekPos = u.seekPos := by
      intro u
      unfold pressSeekBar
      split <;> rfl
    rw [h4, (pressNext_same inp _).1, (pressPlay_same inp _).1, (pressPrev_same inp _).1,
      (pressPlaylistButtons_same inp _).1]
  · rfl

theorem handlePress_draggingSeek (inp : FrameInput) (s : State)
    (h : (inp.pressed && CheckCollisionPointRec inp.mouse seekBar) = false) :
    (handlePress inp s).draggingSeek = s.draggingSeek := by
  unfold handlePress
  split
  · next hp =>
    have hhit : CheckCollisionPointRec inp.mouse seekBar = false := by
      rw [hp] at h
      simpa using h
    have h4 : ∀ u : State, (pressSeekBar inp u).draggingSeek = u.draggingSeek := by
      intro u
      unfold pressSeekBar
      rw [hhit]
      rfl
    rw [h4, (pressNext_same inp _).2, (pressPlay_same inp _).2, (pressPrev_same inp _).2,
      (pressPlaylistButtons_same inp _).2]
  · rfl

theorem dragSeek_draggingSeek (inp : FrameInput) (s : State) :
    (dragSeek inp s).draggingSeek = s.draggingSeek := by
  unfold dragSeek
  split
  · split
    · rfl
    · split <;> rfl
  · rfl

theorem dragSeek_idle (inp : FrameInput) (s : State) (h : s.draggingSeek = false) :
    dragSeek inp s = s := by
  unfold dragSeek
  rw [h]
  rfl

theorem sidebarLoop_draggingSeek (inp : FrameInput) (ls : Locals × State) :
    (sidebarLoop inp ls).2.draggingSeek = ls.2.draggingSeek := by
  have step : ∀ (x : Locals × State) (b : ℤ × Rectangle),
      (sidebarBody inp x b).2.draggingSeek = x.2.draggingSeek := by
    intro x b
    unfold sidebarBody
    split <;> rfl
  unfold sidebarLoop
  simp only [List.foldl_cons, List.foldl_nil, step]

theorem trackListBody_draggingSeek (inp : FrameInput) (sc : ℚ) (acc : ListLoop) (i : ℕ) :
    (trackListBody inp sc acc i).state.draggingSeek = acc.state.draggingSeek := by
  unfold trackListBody
  split
  · rfl
  · split
    · rfl
    · simp only []
      split
      · exact (PlayTrack_same inp.env _ acc.state).2.1
      · rfl

theorem trackListLoop_draggingSeek (inp : FrameInput) (loc : Locals) (s : State) :
    (trackListLoop inp loc s).state.draggingSeek = s.draggingSeek := by
  have gen : ∀ (l : List ℕ) (acc : ListLoop),
      (l.foldl (trackListBody inp loc.listScroll) acc).state.draggingSeek
        = acc.state.draggingSeek := by
    intro l
    induction l with
    | nil => intro acc; rfl
    | cons i rest ih =>
      intro acc
      rw [List.foldl_cons, ih, trackListBody_draggingSeek]
  unfold trackListLoop
  rw [gen]

/-- C7. In a frame in which `draggingSeek` is true after the handling of the button
events and the current track is loaded, `seekPos` at the end of the update is
`Clamp((mouse.x - seekBar.x) / seekBar.width, 0, 1)`, whatever the stream reports.  In a
frame in which the release event is observed, `draggingSeek` is false after the handling
of the events, at the end of the update and at the end of the frame, wherever the pointer
is.  And from a state with `draggingSeek` false, a frame with a loaded current track of
positive length sets `seekPos` to played / length in its readback, and that is its value
at the end of the update unless the seek bar is pressed in that very frame. -/
theorem seek_drag_authority (inp : FrameInput) (s : State) :
    (∀ t : Track, (afterInput inp s).draggingSeek = true →
      0 ≤ (afterInput inp s).currentIndex →
      (afterInput inp s).playlist[(afterInput inp s).currentIndex.toNat]? = some t →
      t.loaded = true →
      (frameUpdate inp s).seekPos = Clamp ((inp.mouse.x - seekBar.x) / seekBar.width) 0 1) ∧
    (inp.released = true →
      (afterInput inp s).draggingSeek = false ∧ (frameUpdate inp s).draggingSeek = false ∧
      ∀ loc : Locals, (frame inp (loc, s)).2.draggingSeek = false) ∧
    (∀ (inp2 : FrameInput) (s2 : State) (t : Track),
      s2.draggingSeek = false → s2.currentLoaded = true →
      s2.playlist[s2.currentIndex.toNat]? = some t → 0 < inp2.GetMusicTimeLength t.music →
      (streamReadback inp2 (tickPulses inp2 s2)).seekPos
        = inp2.GetMusicTimePlayed t.music / inp2.GetMusicTimeLength t.music ∧
      ((inp2.pressed && CheckCollisionPointRec inp2.mouse seekBar) = false →
        (frameUpdate inp2 s2).seekPos
          = inp2.GetMusicTimePlayed t.music / inp2.GetMusicTimeLength t.music)) := by
  refine ⟨?_, ?_, ?_⟩
  · intro t hd hc ht hl
    unfold frameUpdate dragSeek
    rw [hd, ht]
    simp only [Bool.true_and, decide_eq_true_eq, ge_iff_le, hc, if_true]
    rw [if_pos hl]
    rfl
  · intro hr
    have h1 : (afterInput inp s).draggingSeek = false := by
      unfold afterInput handleRelease
      rw [if_pos hr]
    have h2 : (frameUpdate inp s).draggingSeek = false := by
      unfold frameUpdate
      rw [dragSeek_draggingSeek, h1]
    refine ⟨h1, h2, fun loc => ?_⟩
    unfold frame
    simp only []
    rw [trackListLoop_draggingSeek, sidebarLoop_draggingSeek]
    exact h2
  · intro inp2 s2 t hd hcl ht hlen
    have hrb : (streamReadback inp2 (tickPulses inp2 s2)).seekPos
        = inp2.GetMusicTimePlayed t.music / inp2.GetMusicTimeLength t.music := by
      have hcl2 : (tickPulses inp2 s2).currentLoaded = true := hcl
      have ht2 : (tickPulses inp2 s2).playlist[(tickPulses inp2 s2).currentIndex.toNat]?
          = some t := ht
      unfold streamReadback
      rw [if_pos hcl2, ht2]
      simp only []
      rw [if_pos hlen]
    refine ⟨hrb, fun hnp => ?_⟩
    have hdrag : (afterInput inp2 s2).draggingSeek = false := by
      unfold afterInput handleRelease
      have h0 : (handlePress inp2 (streamReadback inp2 (tickPulses inp2 s2))).draggingSeek
          = false := by
        rw [handlePress_draggingSeek _ _ hnp]
        unfold streamReadback
        split
        · split
          · exact hd
          · simp only [State.call]
            split <;> exact hd
        · exact hd
      split
      · rfl
      · exact h0
    unfold frameUpdate
    rw [dragSeek_idle _ _ hdrag]
    unfold afterInput
    have hrel : ∀ u : State, (handleRelease inp2 u).seekPos = u.seekPos := by
      intro u
      unfold handleRelease
      split <;> rfl
    rw [hrel, handlePress_seekPos, hrb]

theorem dragState_afterInput :
    (afterInput dragInput dragState).draggingSeek = true ∧
    (afterInput dragInput dragState).currentIndex = 0 ∧
    ∃ t, (afterInput dragInput dragState).playlist[0]? = some t ∧ t.loaded = true := by
  have hcl : (tickPulses dragInput dragState).currentLoaded = true := rfl
  have hrb : ∃ sp, streamReadback dragInput (tickPulses dragInput dragState)
      = { (tickPulses dragInput dragState).call (Call.UpdateMusicStream 0) with seekPos := sp }
      := by
    unfold streamReadback
    rw [if_pos hcl]
    refine ⟨50 / 200, ?_⟩
    have hp : (tickPulses dragInput dragState).playlist[
        (tickPulses dragInput dragState).currentIndex.toNat]?
          = some (tickPulses dragInput dragState).playlist[0] := rfl
    rw [hp]
    simp only []
    have hlen : dragInput.GetMusicTimeLength (tickPulses dragInput dragState).playlist[0].music
        = 200 := rfl
    have hpl : dragInput.GetMusicTimePlayed (tickPulses dragInput dragState).playlist[0].music
        = 50 := rfl
    rw [hlen, hpl, if_pos (by norm_num)]
    rfl
  obtain ⟨sp, hsp⟩ := hrb
  unfold afterInput
  rw [hsp]
  exact ⟨rfl, rfl, _, rfl, rfl⟩

/-- C7 on a frame in the middle of a drag over the middle of the seek bar: the stream
reports 50/200 and `seekPos` ends as the pointer fraction; and on a frame with the
release event far from the seek bar. -/
theorem seek_drag_authority_witness :
    (frameUpdate dragInput dragState).seekPos
      = Clamp ((dragInput.mouse.x - seekBar.x) / seekBar.width) 0 1 ∧
    Clamp ((dragInput.mouse.x - seekBar.x) / seekBar.width) 0 1 = 1 / 2 ∧
    (releaseInput.released = true ∧ (frameUpdate releaseInput dragState).draggingSeek = false) := by
  obtain ⟨h1, h2, t, h3, h4⟩ := dragState_afterInput
  refine ⟨(seek_drag_authority dragInput dragState).1 t h1 (by rw [h2])
    (by rw [h2]; exact h3) h4, ?_,
    rfl, ((seek_drag_authority releaseInput dragState).2.1 rfl).2.1⟩
  norm_num [Clamp, dragInput, seekBar, bottom, screenW]

/-! ## C6: the playlist filter of the track list -/

theorem visible_eq_of_same (s s1 : State) (h : SameSession s s1) (i : ℕ) :
    visible s1 i = visible s i := by
  obtain ⟨_, _, hsel, hd⟩ := h
  have hdi := hd i
  unfold visible
  rw [hsel]
  cases h1 : s1.playlist[i]? with
  | none =>
    cases h0 : s.playlist[i]? with
    | none => rfl
    | some t0 => rw [h1, h0] at hdi; exact absurd hdi (by simp)
  | some t1 =>
    cases h0 : s.playlist[i]? with
    | none => rw [h1, h0] at hdi; exact absurd hdi (by simp)
    | some t0 =>
      rw [h1, h0] at hdi
      simp only [Option.map_some', Option.some.injEq, Track.descriptor, Prod.mk.injEq] at hdi
      simp only [skipped, hdi.2.2.2.2]

theorem trackListBody_rows (inp : FrameInput) (sc : ℚ) (acc : ListLoop) (i : ℕ) :
    (trackListBody inp sc acc i).rows.map Row.index
      = acc.rows.map Row.index ++ (if visible acc.state i then [i] else []) := by
  cases h : acc.state.playlist[i]? with
  | none =>
    have hv : visible acc.state i = false := by
      unfold visible
      rw [h]
    have hb : trackListBody inp sc acc i = acc := by
      unfold trackListBody
      rw [h]
    rw [hv, hb]
    simp
  | some t =>
    by_cases hs : skipped acc.state.selectedPlaylist t = true
    · have hv : visible acc.state i = false := by
        unfold visible
        rw [h]
        simp only [hs, Bool.not_true]
      have hb : trackListBody inp sc acc i = acc := by
        unfold trackListBody
        rw [h]
        simp only []
        rw [if_pos hs]
      rw [hv, hb]
      simp
    · have hv : visible acc.state i = true := by
        unfold visible
        rw [h]
        simpa using hs
      rw [hv]
      unfold trackListBody
      rw [h]
      simp only []
      rw [if_neg hs]
      split <;> simp

theorem trackListBody_same (inp : FrameInput) (sc : ℚ) (acc : ListLoop) (i : ℕ) :
    SameSession acc.state (trackListBody inp sc acc i).state := by
  unfold trackListBody
  split
  · exact SameSession.refl _
  · split
    · exact SameSession.refl _
    · simp only []
      split
      · exact PlayTrack_same inp.env _ acc.state
      · exact SameSession.refl _

theorem trackListBody_idle (inp : FrameInput) (sc : ℚ) (acc : ListLoop) (i : ℕ)
    (h : inp.pressed = false) : (trackListBody inp sc acc i).state = acc.state := by
  unfold trackListBody
  split
  · rfl
  · split
    · rfl
    · simp only [h, Bool.false_and, Bool.false_eq_true, if_false]

theorem trackListFold (inp : FrameInput) (sc : ℚ) (s : State) (l : List ℕ) (acc : ListLoop)
    (h : SameSession s acc.state) :
    (l.foldl (trackListBody inp sc) acc).rows.map Row.index
        = acc.rows.map Row.index ++ l.filter (visible s) ∧
      SameSession s (l.foldl (trackListBody inp sc) acc).state ∧
      (inp.pressed = false → (l.foldl (trackListBody inp sc) acc).state = acc.state) := by
  induction l generalizing acc with
  | nil => exact ⟨by simp, h, fun _ => rfl⟩
  | cons i rest ih =>
    have h1 : SameSession s (trackListBody inp sc acc i).state :=
      SameSession.trans h (trackListBody_same inp sc acc i)
    obtain ⟨r1, r2, r3⟩ := ih (trackListBody inp sc acc i) h1
    rw [List.foldl_cons]
    refine ⟨?_, r2, fun hp => ?_⟩
    · rw [r1, trackListBody_rows, visible_eq_of_same s acc.state h i, List.filter_cons]
      cases visible s i <;> simp
    · rw [r3 hp, trackListBody_idle inp sc acc i hp]

theorem visible_iff (s : State) (i : ℕ) :
    visible s i = true ↔
      ∃ t, s.playlist[i]? = some t ∧
        (s.selectedPlaylist = "All" ∨ s.selectedPlaylist ∈ t.playlistTags) := by
  unfold visible skipped
  cases h : s.playlist[i]? with
  | none => simp
  | some t =>
    by_cases hall : s.selectedPlaylist = "All"
    · simp [hall]
    · simp [hall]

theorem displayed_eq_filter (inp : FrameInput) (loc : Locals) (s : State) :
    displayed inp loc s = (List.range s.playlist.length).filter (visible s) := by
  unfold displayed trackListLoop
  rw [(trackListFold inp loc.listScroll s _ ⟨0, loc.selectedListIndex, s, []⟩
    (SameSession.refl s)).1]
  rfl

/-- C6. The store indices shown by the track-list loop are the filtered view of the
specification: in increasing store order, exactly the indices whose tag list contains the
selected playlist name, and all indices for `All`.  The loop changes no state when no
click takes place, and in any case leaves the selected playlist and the identity data
(tags included) of every track as they are.  Of the start-up playlist, track 2, tagged
`Chill` and `Workout`, is shown for `Chill`, `Workout` and `All` and not for
`Favourites`. -/
theorem filter_pure_order_preserving (inp : FrameInput) (loc : Locals) (s : State) :
    displayed inp loc s = filteredView s.playlist s.selectedPlaylist ∧
    (displayed inp loc s).Pairwise (fun i j => i < j) ∧
    (∀ i : ℕ, i ∈ displayed inp loc s ↔
      ∃ t, s.playlist[i]? = some t ∧
        (s.selectedPlaylist = "All" ∨ s.selectedPlaylist ∈ t.playlistTags)) ∧
    (s.selectedPlaylist = "All" → displayed inp loc s = List.range s.playlist.length) ∧
    (inp.pressed = false → (trackListLoop inp loc s).state = s) ∧
    ((trackListLoop inp loc s).state.selectedPlaylist = s.selectedPlaylist ∧
      (trackListLoop inp loc s).state.playlist.map Track.descriptor
        = s.playlist.map Track.descriptor) ∧
    (2 ∈ displayed inp loc { startup with selectedPlaylist := "Chill" } ∧
      2 ∈ displayed inp loc { startup with selectedPlaylist := "Workout" } ∧
      2 ∈ displayed inp loc { startup with selectedPlaylist := "All" } ∧
      2 ∉ displayed inp loc { startup with selectedPlaylist := "Favourites" }) := by
  have hmem : ∀ (u : State) (i : ℕ), i ∈ displayed inp loc u ↔
      ∃ t, u.playlist[i]? = some t ∧
        (u.selectedPlaylist = "All" ∨ u.selectedPlaylist ∈ t.playlistTags) := by
    intro u i
    rw [displayed_eq_filter, List.mem_filter, visible_iff, List.mem_range]
    constructor
    · exact fun h => h.2
    · intro h
      refine ⟨?_, h⟩
      obtain ⟨t, ht, _⟩ := h
      rcases List.getElem?_eq_some.mp ht with ⟨hlt, _⟩
      exact hlt
  have hfold := trackListFold inp loc.listScroll s (List.range s.playlist.length)
    ⟨0, loc.selectedListIndex, s, []⟩ (SameSession.refl s)
  refine ⟨?_, ?_, hmem s, ?_, hfold.2.2, ⟨hfold.2.1.2.2.1, ?_⟩, ?_⟩
  · rw [displayed_eq_filter]
    unfold filteredView
    apply List.filter_congr
    intro i hi
    rw [List.mem_range] at hi
    unfold visible skipped
    rw [List.getElem?_eq_getElem hi]
    by_cases hall : s.selectedPlaylist = "All"
    · simp [hall]
    · simp [hall]
  · rw [displayed_eq_filter]
    exact List.Pairwise.filter _ (List.pairwise_lt_range _)
  · intro hall
    rw [displayed_eq_filter, List.filter_eq_self]
    intro i hi
    rw [visible_iff]
    rw [List.mem_range] at hi
    exact ⟨_, List.getElem?_eq_getElem hi, Or.inl hall⟩
  · apply List.ext_getElem?
    intro j
    rw [List.getElem?_map, List.getElem?_map]
    exact hfold.2.1.2.2.2 j
  · refine ⟨?_, ?_, ?_, ?_⟩
    · rw [hmem]
      exact ⟨_, rfl, Or.inr (by decide)⟩
    · rw [hmem]
      exact ⟨_, rfl, Or.inr (by decide)⟩
    · rw [hmem]
      exact ⟨_, rfl, Or.inl rfl⟩
    · rw [hmem]
      rintro ⟨t, ht, h⟩
      have ht2 : t = startup.playlist[2] := (Option.some.inj ht).symm
      rw [ht2] at h
      revert h
      decide

/-- C6 on the start-up playlist with `Chill` selected and no click: tracks 0 and 2 are
shown, in this order, and the loop leaves the state as it is. -/
theorem filter_pure_order_preserving_witness :
    displayed dragInput {} { startup with selectedPlaylist := "Chill" } = [0, 2] ∧
    (dragInput.pressed = false ∧
      (trackListLoop dragInput {} { startup with selectedPlaylist := "Chill" }).state
        = { startup with selectedPlaylist := "Chill" }) :=
  ⟨(filter_pure_order_preserving dragInput {}
      { startup with selectedPlaylist := "Chill" }).1.trans (by decide),
    rfl,
    (filter_pure_order_preserving dragInput {}
      { startup with selectedPlaylist := "Chill" }).2.2.2.2.1 rfl⟩

end Spotify
